import Mathlib

/-!
Verification development for the Brickwatch FinOps agent.

The Lean definitions below are shallow embeddings of the Python sources:

* `Brickwatch.Policies` — `company_policies.py` (the policy registry,
  `is_instance_type_allowed`, `get_recommended_type`).
* `Brickwatch.Collector` — the recommendation collector of the agent runtime
  (`check_lambda_functions`, `check_s3_buckets`,
  `get_rightsizing_recommendations`).
* `Brickwatch.Analytics` — `_percentage_delta` of `services/analytics.py`.
* `Brickwatch.Runner` — `BrickwatchStrandRunner._run_via_strands`,
  `_workflow_blueprint` and `execute_workflow_step`.
* `Brickwatch.Workflows` — `ValidateRecommendationsStep.execute`.

Machine floats of the Python code are modelled as rationals; `round(x, 2)`
is modelled as round-half-to-even on the scaled rational, and currency
formatting `f"${x:.2f}"` as decimal formatting of a whole number of cents.
External AWS calls are modelled as explicit inputs: a list of the rows the
call would return, or `Option`/flags where the code distinguishes a failing
call from an empty result.
-/

namespace Brickwatch

namespace Policies

/-- Anchored glob matching on character lists: `*` matches any sequence,
every other pattern character (including `.`) is literal.  This is the
matching relation produced by the source's pattern-to-regex conversion
(`pattern.replace(".", "\\.").replace("*", ".*")` wrapped in `^...$`). -/
def globMatch : List Char → List Char → Bool
  | [], cs => cs.isEmpty
  | '*' :: ps, cs => cs.tails.any fun suffix => globMatch ps suffix
  | p :: ps, cs =>
    match cs with
    | [] => false
    | c :: cs => p == c && globMatch ps cs

/-- Declarative specification of an anchored full glob match: the value is
the pattern with every `*` replaced by some (possibly empty) substring. -/
inductive GlobMatches : List Char → List Char → Prop
  | nil : GlobMatches [] []
  | lit {p : Char} {ps cs : List Char} (hp : p ≠ '*') :
      GlobMatches ps cs → GlobMatches (p :: ps) (p :: cs)
  | starSkip {ps cs : List Char} : GlobMatches ps cs → GlobMatches ('*' :: ps) cs
  | starEat {ps cs : List Char} {c : Char} :
      GlobMatches ('*' :: ps) cs → GlobMatches ('*' :: ps) (c :: cs)

/-- `COMPANY_COST_POLICIES["ec2"]["disallowed_instance_types"]`. -/
def ec2DisallowedInstanceTypes : List String :=
  ["r5.*", "r5a.*", "r5b.*", "r5n.*", "r6i.*", "r6a.*",
   "m5.*", "m5a.*", "m5n.*", "m6i.*",
   "c5.*", "c5a.*", "c5n.*", "c6i.*",
   "t2.*", "t3.large", "t3.xlarge", "t3.2xlarge"]

/-- The top-level keys of `COMPANY_COST_POLICIES`: exactly these services
have a (non-empty) policy entry, so `get_policy` returns `{}` — falsy —
for every other service string. -/
def policyServices : List String :=
  ["metadata", "ec2", "rds", "lambda", "ebs", "s3", "elasticache", "general"]

/-- `get_policy(service)` is non-empty (truthy) exactly for the services of
the registry. -/
def hasPolicy (service : String) : Bool := policyServices.contains service

/-- `policy.get("disallowed_instance_types", [])`: only the `ec2` entry of
the registry carries that key (the RDS analogue is named
`disallowed_instance_classes` and is not read by `is_instance_type_allowed`). -/
def disallowedInstanceTypesOf (service : String) : List String :=
  if service = "ec2" then ec2DisallowedInstanceTypes else []

/-- `policy.get("recommended_types", [])`: present on the `ec2`, `ebs` and
`elasticache` entries of the registry. -/
def recommendedTypesOf (service : String) : List String :=
  if service = "ec2" then ["t3.micro", "t3.small", "t3.medium"]
  else if service = "ebs" then ["gp3"]
  else if service = "elasticache" then
    ["cache.t3.micro", "cache.t3.small", "cache.t3.medium"]
  else []

/-- `company_policies.is_instance_type_allowed`. -/
def is_instance_type_allowed (instance_type : String) (service : String := "ec2") :
    Bool :=
  if hasPolicy service then
    ! (disallowedInstanceTypesOf service).any fun pattern =>
        globMatch pattern.toList instance_type.toList
  else true

/-- `company_policies.get_recommended_type`. -/
def get_recommended_type (current_type : String) (service : String := "ec2") :
    String :=
  if ¬ hasPolicy service then current_type
  else
    let recommended := recommendedTypesOf service
    if recommended ≠ [] then
      if recommended.contains "t3.medium" then "t3.medium"
      else recommended.headD current_type
    else current_type

end Policies

namespace Analytics

/-- `services/analytics.py::_percentage_delta`. -/
def percentage_delta (previous current : ℚ) : Option ℚ :=
  if previous = 0 then
    if current = 0 then none else some 100
  else some ((current - previous) / previous * 100)

end Analytics

end Brickwatch

namespace Brickwatch.Policies

theorem globMatch_nil_nil : globMatch [] [] = true := rfl

theorem globMatches_of_suffix {ps cs suffix : List Char}
    (h : GlobMatches ps suffix) (hs : suffix <:+ cs) :
    GlobMatches ('*' :: ps) cs := by
  induction cs with
  | nil =>
    rw [List.suffix_nil.mp hs] at h
    exact GlobMatches.starSkip h
  | cons c cs ih =>
    rcases List.suffix_cons_iff.mp hs with h1 | h2
    · exact h1 ▸ GlobMatches.starSkip h
    · exact GlobMatches.starEat (ih h2)

theorem globMatch_of_globMatches {ps cs : List Char} (h : GlobMatches ps cs) :
    globMatch ps cs = true := by
  induction h with
  | nil => rfl
  | lit hp _ ih =>
    rename_i p ps cs _
    have hstep : globMatch (p :: ps) (p :: cs) = (p == p && globMatch ps cs) := by
      simp [globMatch, hp]
    simp [hstep, ih]
  | starSkip _ ih =>
    rename_i ps cs _
    simp only [globMatch, List.any_eq_true]
    exact ⟨cs, by simp, ih⟩
  | starEat _ ih =>
    rename_i ps cs c _
    simp only [globMatch, List.any_eq_true] at ih ⊢
    obtain ⟨suffix, hmem, hsuf⟩ := ih
    refine ⟨suffix, ?_, hsuf⟩
    rw [List.tails_cons]
    exact List.mem_cons_of_mem _ hmem

theorem globMatches_of_globMatch :
    ∀ ps cs : List Char, globMatch ps cs = true → GlobMatches ps cs := by
  intro ps
  induction ps with
  | nil =>
    intro cs h
    rw [show globMatch [] cs = cs.isEmpty from rfl] at h
    rw [List.isEmpty_iff.mp h]
    exact GlobMatches.nil
  | cons p ps ih =>
    by_cases hp : p = '*'
    · subst hp
      intro cs h
      rw [show globMatch ('*' :: ps) cs
            = (cs.tails.any fun suffix => globMatch ps suffix) from rfl] at h
      rw [List.any_eq_true] at h
      obtain ⟨suffix, hmem, hsuf⟩ := h
      exact globMatches_of_suffix (ih suffix hsuf) ((List.mem_tails _ _).mp hmem)
    · intro cs h
      cases cs with
      | nil =>
        exfalso
        have hstep : globMatch (p :: ps) [] = false := by
          simp [globMatch, hp]
        rw [hstep] at h
        exact Bool.false_ne_true h
      | cons c cs =>
        have hstep : globMatch (p :: ps) (c :: cs)
            = (p == c && globMatch ps cs) := by
          simp [globMatch, hp]
        rw [hstep] at h
        obtain ⟨hpc, hrest⟩ := Bool.and_eq_true_iff.mp h
        have hpce : p = c := eq_of_beq hpc
        subst hpce
        exact GlobMatches.lit hp (ih _ hrest)

/-- The executable matcher agrees with the declarative anchored-glob
specification. -/
theorem globMatch_iff_globMatches (ps cs : List Char) :
    globMatch ps cs = true ↔ GlobMatches ps cs :=
  ⟨globMatches_of_globMatch ps cs, globMatch_of_globMatches⟩



theorem disallowed_empty_of_not_ec2 {kind : String} (h : kind ≠ "ec2") :
    disallowedInstanceTypesOf kind = [] := by
  simp [disallowedInstanceTypesOf, h]

/-- C3: `is_instance_type_allowed(v, kind)` returns `false` iff `v` fully
matches (anchored, case-sensitive, `.` literal, `*` any sequence) at least
one pattern of the kind's `disallowed_instance_types` policy list; a kind
with no policy entry is always allowed (default-allow). -/
theorem is_instance_type_allowed_iff_no_disallowed_match (v kind : String) :
    (Policies.is_instance_type_allowed v kind = false ↔
      ∃ p ∈ Policies.disallowedInstanceTypesOf kind,
        Policies.GlobMatches p.toList v.toList) ∧
    (kind ∉ Policies.policyServices →
      Policies.is_instance_type_allowed v kind = true) := by
  constructor
  · unfold Policies.is_instance_type_allowed
    by_cases h : Policies.hasPolicy kind
    · rw [if_pos h, Bool.not_eq_false', List.any_eq_true]
      constructor
      · rintro ⟨p, hp, hm⟩
        exact ⟨p, hp, (globMatch_iff_globMatches _ _).mp hm⟩
      · rintro ⟨p, hp, hm⟩
        exact ⟨p, hp, (globMatch_iff_globMatches _ _).mpr hm⟩
    · rw [if_neg h]
      simp only [Bool.true_eq_false, false_iff]
      rintro ⟨p, hp, -⟩
      have hne : kind ≠ "ec2" := by
        rintro rfl
        exact h (by decide)
      rw [disallowed_empty_of_not_ec2 hne] at hp
      exact absurd hp (List.not_mem_nil p)
  · intro h
    have hna : ¬ Policies.hasPolicy kind = true := by
      simp only [Policies.hasPolicy]
      simpa using h
    simp [Policies.is_instance_type_allowed, hna]

/-- Closed witness for the default-allow branch of the C3 theorem. -/
theorem is_instance_type_allowed_iff_no_disallowed_match_witness :
    Policies.is_instance_type_allowed "r5.large" "dynamodb" = true :=
  (is_instance_type_allowed_iff_no_disallowed_match "r5.large" "dynamodb").2
    (by decide)

/-- C7: the period-over-period percentage function is `None` at
`(0, 0)`, `100.0` at `(0, c)` for `c ≠ 0`, and otherwise
`(current − previous) / previous × 100`; in particular
`percentage_delta 100 150 = 50`. -/
theorem percentage_delta_spec :
    (∀ previous current : ℚ,
      (previous = 0 → current = 0 →
        Analytics.percentage_delta previous current = none) ∧
      (previous = 0 → current ≠ 0 →
        Analytics.percentage_delta previous current = some 100) ∧
      (previous ≠ 0 →
        Analytics.percentage_delta previous current =
          some ((current - previous) / previous * 100))) ∧
    Analytics.percentage_delta 100 150 = some 50 := by
  constructor
  · intro previous current
    refine ⟨fun h0 hc => ?_, fun h0 hc => ?_, fun h0 => ?_⟩
    · simp [Analytics.percentage_delta, h0, hc]
    · simp [Analytics.percentage_delta, h0, hc]
    · simp [Analytics.percentage_delta, h0]
  · norm_num [Analytics.percentage_delta]

/-- Closed witness for C7 at the spec's three sample inputs. -/
theorem percentage_delta_spec_witness :
    Analytics.percentage_delta 0 0 = none ∧
    Analytics.percentage_delta 0 5 = some 100 ∧
    Analytics.percentage_delta 100 150 = some 50 :=
  ⟨(percentage_delta_spec.1 0 0).1 rfl rfl,
   (percentage_delta_spec.1 0 5).2.1 rfl (by norm_num),
   percentage_delta_spec.2⟩

end Brickwatch.Policies

namespace Brickwatch.Runner

/-- JSON-shaped values: the dictionaries threaded through the workflow
runner (`context`, step results, `workflow_results`). -/
inductive JVal where
  | null
  | bool (b : Bool)
  | str (s : String)
  | num (q : ℚ)
  | arr (xs : List JVal)
  | obj (kvs : List (String × JVal))

/-- A Python dict with string keys, as an ordered association list. -/
abbrev Dict := List (String × JVal)

/-- `d.get(k)`. -/
def dget (d : Dict) (k : String) : Option JVal :=
  (d.find? fun p => p.1 == k).map (·.2)

/-- `d[k] = v`: overwrite an existing key in place, else append (Python
dicts preserve insertion order). -/
def dset (d : Dict) (k : String) (v : JVal) : Dict :=
  if d.any (fun p => p.1 == k) then
    d.map fun p => if p.1 == k then (k, v) else p
  else d ++ [(k, v)]

/-- `d.update(u)`. -/
def dupdate (d u : Dict) : Dict :=
  u.foldl (fun acc p => dset acc p.1 p.2) d

/-- `step_result.get("status") == "failed"`. -/
def isFailed (v : Option JVal) : Bool :=
  match v with
  | some (.str s) => s == "failed"
  | _ => false

/-- The keys of `WORKFLOW_STEPS` in `strands_workflows.py`. -/
def workflowStepNames : List String :=
  ["validate_recommendations", "apply_rightsizing", "verify_optimization"]

/-- `strands_workflows.execute_workflow_step`, parameterised by the
behaviour `stepImpl` of the three registered step objects (their bodies
perform AWS calls; only the registry dispatch and the unknown-step branch
are relevant here). -/
def execute_workflow_step (stepImpl : String → Dict → Dict)
    (step_name : String) (context : Dict) : Dict :=
  if workflowStepNames.contains step_name then stepImpl step_name context
  else
    [("status", .str "failed"),
     ("error", .str ("Unknown workflow step: " ++ step_name)),
     ("message", .str ("Workflow step '" ++ step_name ++ "' not found"))]

/-- `WORKFLOW_LIBRARY`, reduced to the step-name sequences:
`_run_via_strands` reads only `step_def["name"]` from each blueprint
entry (the `handler` strings are never dereferenced by the runner). -/
def WORKFLOW_LIBRARY : List (String × List String) :=
  [("optimize_existing_instances",
    ["validate_recommendations", "apply_rightsizing", "verify_optimization"]),
   ("rightsizing",
    ["collect_cost_evidence", "collect_optimizer_signals", "draft_action_plan",
     "approve_plan", "apply_fix", "verify_outcome"]),
   ("rightsizing_rds",
    ["collect_cost_evidence", "collect_rds_metrics", "draft_action_plan",
     "approve_plan", "apply_fix", "verify_outcome"]),
   ("rightsizing_lambda",
    ["collect_cost_evidence", "collect_lambda_metrics", "draft_action_plan",
     "approve_plan", "apply_fix", "verify_outcome"]),
   ("schedule_resize",
    ["collect_targets", "draft_schedule", "approve_plan", "publish_schedule",
     "verify_outcome"]),
   ("shutdown_idle",
    ["identify_idle_resources", "draft_shutdown_plan", "approve_plan",
     "apply_fix", "verify_outcome"])]

/-- `action.replace("-", "_").lower()`: the replacement string is the single
character `-`, so this is a character map (ASCII lowering, as all library
keys are ASCII). -/
def normalizeAction (action : String) : String :=
  String.mk (action.toList.map fun c => if c = '-' then '_' else c.toLower)

/-- `BrickwatchStrandRunner._workflow_blueprint`: normalise the action name
and fall back to the generic `rightsizing` flow on an unknown (or falsy)
library entry. -/
def workflow_blueprint (action : String) : List String :=
  let key := normalizeAction action
  match WORKFLOW_LIBRARY.find? (fun p => p.1 == key) with
  | some p => if p.2.isEmpty then
      ["collect_cost_evidence", "collect_optimizer_signals", "draft_action_plan",
       "approve_plan", "apply_fix", "verify_outcome"]
    else p.2
  | none =>
      ["collect_cost_evidence", "collect_optimizer_signals", "draft_action_plan",
       "approve_plan", "apply_fix", "verify_outcome"]

/-- The step loop of `BrickwatchStrandRunner._run_via_strands`,
parameterised by the step behaviour; returns the final
`workflow_results` dictionary together with the list of executed step
names, in execution order. -/
def runSteps (stepExec : String → Dict → Dict) :
    List String → Dict → Dict → Dict × List String
  | [], _ctx, results =>
      (dset (dset results "status" (.str "completed")) "message"
         (.str "Workflow completed successfully"), [])
  | name :: rest, ctx, results =>
      let r := stepExec name ctx
      let results' := dset results name (.obj r)
      let ctx' := dupdate ctx r
      if isFailed (dget r "status") then
        (dset (dset results' "status" (.str "failed")) "message"
           (.str ("Workflow failed at step: " ++ name)), [name])
      else
        let rec_ := runSteps stepExec rest ctx' results'
        (rec_.1, name :: rec_.2)

/-- `BrickwatchStrandRunner._run_via_strands` (success path; the
`workflow_results` accumulator starts empty and `step_context` starts as a
copy of the caller's context). -/
def run_via_strands (stepExec : String → Dict → Dict)
    (blueprint : List String) (context : Dict) : Dict × List String :=
  runSteps stepExec blueprint context []

/-- The context as evolved by running the named steps in order
(each step's result dict merged into the context). -/
def ctxAfter (stepExec : String → Dict → Dict) (ctx : Dict) :
    List String → Dict
  | [] => ctx
  | n :: rest => ctxAfter stepExec (dupdate ctx (stepExec n ctx)) rest

/-- None of the named steps, executed in order from `ctx`, reports
`status == "failed"`. -/
def noFailures (stepExec : String → Dict → Dict) : Dict → List String → Prop
  | _, [] => True
  | ctx, n :: rest =>
      isFailed (dget (stepExec n ctx) "status") = false ∧
      noFailures stepExec (dupdate ctx (stepExec n ctx)) rest

end Brickwatch.Runner

namespace Brickwatch.Runner

theorem dget_cons_self (k : String) (v : JVal) (tl : Dict) :
    dget ((k, v) :: tl) k = some v := by
  unfold dget
  rw [List.find?_cons_of_pos _ (by simp)]
  rfl

theorem dget_cons_ne {k1 k : String} (v1 : JVal) (tl : Dict) (h : k1 ≠ k) :
    dget ((k1, v1) :: tl) k = dget tl k := by
  unfold dget
  rw [List.find?_cons_of_neg _ (by simp [h])]

theorem dget_dset_self (d : Dict) (k : String) (v : JVal) :
    dget (dset d k v) k = some v := by
  unfold dset
  by_cases ha : d.any (fun p => p.1 == k) = true
  · rw [if_pos ha]
    induction d with
    | nil => simp at ha
    | cons hd tl ih =>
      obtain ⟨k1, v1⟩ := hd
      by_cases hk : k1 = k
      · subst hk
        rw [List.map_cons, if_pos (by simp)]
        exact dget_cons_self _ v _
      · rw [List.map_cons, if_neg (by simp [hk])]
        rw [dget_cons_ne v1 _ hk]
        refine ih ?_
        rcases List.any_eq_true.mp ha with ⟨p, hp, hpk⟩
        rcases List.mem_cons.mp hp with h1 | h2
        · rw [h1] at hpk
          exact absurd (eq_of_beq hpk) hk
        · exact List.any_eq_true.mpr ⟨p, h2, hpk⟩
  · rw [if_neg ha]
    induction d with
    | nil => exact dget_cons_self k v []
    | cons hd tl ih =>
      obtain ⟨k1, v1⟩ := hd
      have hk : k1 ≠ k := by
        intro hk
        exact ha (List.any_eq_true.mpr ⟨(k1, v1), List.mem_cons_self _ _, by simp [hk]⟩)
      rw [List.cons_append, dget_cons_ne v1 _ hk]
      refine ih ?_
      intro hta
      rcases List.any_eq_true.mp hta with ⟨p, hp, hpk⟩
      exact ha (List.any_eq_true.mpr ⟨p, List.mem_cons_of_mem _ hp, hpk⟩)

theorem dget_dset_ne (d : Dict) {k k' : String} (v : JVal) (h : k ≠ k') :
    dget (dset d k v) k' = dget d k' := by
  unfold dset
  by_cases ha : d.any (fun p => p.1 == k) = true
  · rw [if_pos ha]
    induction d with
    | nil => simp [dget]
    | cons hd tl ih =>
      obtain ⟨k1, v1⟩ := hd
      by_cases hk : k1 = k
      · subst hk
        rw [List.map_cons, if_pos (by simp)]
        rw [dget_cons_ne v _ h, dget_cons_ne v1 _ h]
        by_cases hta : tl.any (fun p => p.1 == k1) = true
        · exact ih hta
        · clear ih ha
          induction tl with
          | nil => rfl
          | cons hd2 tl2 ih2 =>
            obtain ⟨k2, v2⟩ := hd2
            have hk2 : k2 ≠ k1 := by
              intro hk2
              exact hta (List.any_eq_true.mpr
                ⟨(k2, v2), List.mem_cons_self _ _, by simp [hk2]⟩)
            rw [List.map_cons, if_neg (by simp [hk2])]
            by_cases hk2' : k2 = k'
            · subst hk2'
              rw [dget_cons_self, dget_cons_self]
            · rw [dget_cons_ne v2 _ hk2', dget_cons_ne v2 _ hk2']
              refine ih2 ?_
              intro hta2
              rcases List.any_eq_true.mp hta2 with ⟨p, hp, hpk⟩
              exact hta (List.any_eq_true.mpr ⟨p, List.mem_cons_of_mem _ hp, hpk⟩)
      · rw [List.map_cons, if_neg (by simp [hk])]
        by_cases hk1' : k1 = k'
        · subst hk1'
          rw [dget_cons_self, dget_cons_self]
        · rw [dget_cons_ne v1 _ hk1', dget_cons_ne v1 _ hk1']
          refine ih ?_
          rcases List.any_eq_true.mp ha with ⟨p, hp, hpk⟩
          rcases List.mem_cons.mp hp with h1 | h2
          · rw [h1] at hpk
            exact absurd (eq_of_beq hpk) hk
          · exact List.any_eq_true.mpr ⟨p, h2, hpk⟩
  · rw [if_neg ha]
    induction d with
    | nil => rw [List.nil_append, dget_cons_ne v [] h]
    | cons hd tl ih =>
      obtain ⟨k1, v1⟩ := hd
      by_cases hk1' : k1 = k'
      · subst hk1'
        rw [List.cons_append, dget_cons_self, dget_cons_self]
      · rw [List.cons_append, dget_cons_ne v1 _ hk1', dget_cons_ne v1 _ hk1']
        refine ih ?_
        intro hta
        rcases List.any_eq_true.mp hta with ⟨p, hp, hpk⟩
        exact ha (List.any_eq_true.mpr ⟨p, List.mem_cons_of_mem _ hp, hpk⟩)

theorem runSteps_spec (stepExec : String → Dict → Dict) :
    ∀ (blueprint : List String) (ctx results : Dict),
      ((runSteps stepExec blueprint ctx results).2 <+: blueprint) ∧
      (noFailures stepExec ctx blueprint →
        (runSteps stepExec blueprint ctx results).2 = blueprint ∧
        dget (runSteps stepExec blueprint ctx results).1 "status"
          = some (.str "completed") ∧
        dget (runSteps stepExec blueprint ctx results).1 "message"
          = some (.str "Workflow completed successfully")) ∧
      (∀ pre name post, blueprint = pre ++ name :: post →
        noFailures stepExec ctx pre →
        isFailed (dget (stepExec name (ctxAfter stepExec ctx pre)) "status")
          = true →
        (runSteps stepExec blueprint ctx results).2 = pre ++ [name] ∧
        dget (runSteps stepExec blueprint ctx results).1 "status"
          = some (.str "failed") ∧
        dget (runSteps stepExec blueprint ctx results).1 "message"
          = some (.str ("Workflow failed at step: " ++ name))) := by
  intro blueprint
  induction blueprint with
  | nil =>
    intro ctx results
    refine ⟨List.nil_prefix, fun _ => ⟨rfl, ?_, ?_⟩, ?_⟩
    · rw [show (runSteps stepExec [] ctx results).1
          = dset (dset results "status" (.str "completed")) "message"
              (.str "Workflow completed successfully") from rfl]
      rw [dget_dset_ne _ _ (by decide), dget_dset_self]
    · rw [show (runSteps stepExec [] ctx results).1
          = dset (dset results "status" (.str "completed")) "message"
              (.str "Workflow completed successfully") from rfl]
      rw [dget_dset_self]
    · intro pre name post hdec
      exact absurd hdec (by cases pre <;> simp)
  | cons n rest ih =>
    intro ctx results
    by_cases hf : isFailed (dget (stepExec n ctx) "status") = true
    · have hrun : runSteps stepExec (n :: rest) ctx results
          = (dset (dset (dset results n (.obj (stepExec n ctx))) "status"
              (.str "failed")) "message"
              (.str ("Workflow failed at step: " ++ n)), [n]) := by
        simp [runSteps, hf]
      refine ⟨?_, ?_, ?_⟩
      · rw [hrun]
        exact ⟨rest, rfl⟩
      · intro hnf
        exact absurd hnf.1 (by simp [hf])
      · intro pre name post hdec hnfpre hfail
        cases pre with
        | nil =>
          simp only [List.nil_append, List.cons.injEq] at hdec
          obtain ⟨hname, hpost⟩ := hdec
          subst hname
          rw [hrun]
          refine ⟨rfl, ?_, ?_⟩
          · rw [dget_dset_ne _ _ (by decide), dget_dset_self]
          · rw [dget_dset_self]
        | cons p pre' =>
          simp only [List.cons_append, List.cons.injEq] at hdec
          obtain ⟨hp, hrest⟩ := hdec
          subst hp
          exact absurd hnfpre.1 (by simp [hf])
    · have hf' : isFailed (dget (stepExec n ctx) "status") = false :=
        Bool.not_eq_true _ ▸ (Bool.eq_false_iff.mpr hf)
      have hrun : runSteps stepExec (n :: rest) ctx results
          = ((runSteps stepExec rest (dupdate ctx (stepExec n ctx))
                (dset results n (.obj (stepExec n ctx)))).1,
             n :: (runSteps stepExec rest (dupdate ctx (stepExec n ctx))
                (dset results n (.obj (stepExec n ctx)))).2) := by
        simp [runSteps, hf]
      obtain ⟨ihpre, ihok, ihfail⟩ :=
        ih (dupdate ctx (stepExec n ctx)) (dset results n (.obj (stepExec n ctx)))
      refine ⟨?_, ?_, ?_⟩
      · rw [hrun]
        obtain ⟨t, ht⟩ := ihpre
        exact ⟨t, by rw [List.cons_append, ht]⟩
      · intro hnf
        obtain ⟨h1, h2⟩ := hnf
        obtain ⟨ht, hs, hm⟩ := ihok h2
        rw [hrun]
        exact ⟨by simp [ht], hs, hm⟩
      · intro pre name post hdec hnfpre hfail
        cases pre with
        | nil =>
          simp only [List.nil_append, List.cons.injEq] at hdec
          obtain ⟨hname, hpost⟩ := hdec
          subst hname
          exact absurd hfail (by simp [ctxAfter, hf])
        | cons p pre' =>
          simp only [List.cons_append, List.cons.injEq] at hdec
          obtain ⟨hp, hrest⟩ := hdec
          subst hp
          have hctx : ctxAfter stepExec ctx (n :: pre')
              = ctxAfter stepExec (dupdate ctx (stepExec n ctx)) pre' := rfl
          rw [hctx] at hfail
          obtain ⟨ht, hs, hm⟩ := ihfail pre' name post hrest hnfpre.2 hfail
          rw [hrun]
          exact ⟨by simp [ht], hs, hm⟩

end Brickwatch.Runner

namespace Brickwatch.Runner

/-- C2: the workflow runner executes steps strictly in blueprint order (the
executed-step trace is a prefix of the blueprint); if a step's result map
carries `status == "failed"` then no later step is executed, the run's
overall status is `"failed"` and the returned message names the failing
step; if no step fails, the run completes with status `"completed"` after
the last step. -/
theorem run_via_strands_fail_fast (stepExec : String → Dict → Dict)
    (blueprint : List String) (context : Dict) :
    ((run_via_strands stepExec blueprint context).2 <+: blueprint) ∧
    (noFailures stepExec context blueprint →
      (run_via_strands stepExec blueprint context).2 = blueprint ∧
      dget (run_via_strands stepExec blueprint context).1 "status"
        = some (.str "completed") ∧
      dget (run_via_strands stepExec blueprint context).1 "message"
        = some (.str "Workflow completed successfully")) ∧
    (∀ pre name post, blueprint = pre ++ name :: post →
      noFailures stepExec context pre →
      isFailed (dget (stepExec name (ctxAfter stepExec context pre)) "status")
        = true →
      (run_via_strands stepExec blueprint context).2 = pre ++ [name] ∧
      dget (run_via_strands stepExec blueprint context).1 "status"
        = some (.str "failed") ∧
      dget (run_via_strands stepExec blueprint context).1 "message"
        = some (.str ("Workflow failed at step: " ++ name))) :=
  runSteps_spec stepExec blueprint context []

/-- A sample step behaviour: step `"b"` reports failure, every other step
succeeds. -/
def sampleStepExec : String → Dict → Dict := fun name _ =>
  if name == "b" then [("status", .str "failed"), ("error", .str "boom")]
  else [("status", .str "success")]

/-- Closed witness for C2: a three-step blueprint whose middle step fails
executes exactly the first two steps, reports overall failure, and the
message names step `"b"`. -/
theorem run_via_strands_fail_fast_witness :
    (run_via_strands sampleStepExec ["a", "b", "c"] []).2 = ["a", "b"] ∧
    dget (run_via_strands sampleStepExec ["a", "b", "c"] []).1 "status"
      = some (.str "failed") ∧
    dget (run_via_strands sampleStepExec ["a", "b", "c"] []).1 "message"
      = some (.str "Workflow failed at step: b") :=
  (run_via_strands_fail_fast sampleStepExec ["a", "b", "c"] []).2.2
    ["a"] "b" ["c"] rfl ⟨by decide, trivial⟩ (by decide)

/-- C8: an unknown workflow step name makes `execute_workflow_step` return
a structured failure dictionary (status `"failed"` with a message), and an
unknown action name — whose blueprint lookup falls back to the generic
`rightsizing` flow, none of whose steps is registered — makes the run
finish with a structured failure result naming the first fallback step;
in neither case does an exception reach the caller (both functions are
total and return a dictionary). -/
theorem unknown_step_and_action_yield_structured_failure :
    (∀ (stepImpl : String → Dict → Dict) (step_name : String) (context : Dict),
      workflowStepNames.contains step_name = false →
      dget (execute_workflow_step stepImpl step_name context) "status"
        = some (.str "failed") ∧
      dget (execute_workflow_step stepImpl step_name context) "message"
        = some (.str ("Workflow step '" ++ step_name ++ "' not found"))) ∧
    (∀ (stepImpl : String → Dict → Dict) (action : String) (context : Dict),
      WORKFLOW_LIBRARY.find?
          (fun p => p.1 == normalizeAction action) = none →
      dget (run_via_strands (execute_workflow_step stepImpl)
              (workflow_blueprint action) context).1 "status"
        = some (.str "failed") ∧
      dget (run_via_strands (execute_workflow_step stepImpl)
              (workflow_blueprint action) context).1 "message"
        = some (.str "Workflow failed at step: collect_cost_evidence")) := by
  constructor
  · intro stepImpl step_name context hstep
    have hexec : execute_workflow_step stepImpl step_name context
        = [("status", .str "failed"),
           ("error", .str ("Unknown workflow step: " ++ step_name)),
           ("message", .str ("Workflow step '" ++ step_name ++ "' not found"))] := by
      unfold execute_workflow_step
      rw [if_neg (by simp [hstep, List.contains_eq_any_beq] at hstep ⊢; exact hstep)]
    rw [hexec]
    refine ⟨dget_cons_self _ _ _, ?_⟩
    rw [dget_cons_ne _ _ (by decide), dget_cons_ne _ _ (by decide), dget_cons_self]
  · intro stepImpl action context hfind
    have hbp : workflow_blueprint action
        = ["collect_cost_evidence", "collect_optimizer_signals",
           "draft_action_plan", "approve_plan", "apply_fix", "verify_outcome"] := by
      unfold workflow_blueprint
      simp only []
      rw [show (List.find? (fun p => p.1 == normalizeAction action)
        WORKFLOW_LIBRARY) = none from hfind]
    have hexec : execute_workflow_step stepImpl "collect_cost_evidence" context
        = [("status", .str "failed"),
           ("error", .str ("Unknown workflow step: " ++ "collect_cost_evidence")),
           ("message", .str ("Workflow step '" ++ "collect_cost_evidence"
              ++ "' not found"))] := by
      unfold execute_workflow_step
      rw [if_neg (by decide)]
    have hspec := (runSteps_spec (execute_workflow_step stepImpl)
        (workflow_blueprint action) context []).2.2 []
        "collect_cost_evidence"
        ["collect_optimizer_signals", "draft_action_plan", "approve_plan",
         "apply_fix", "verify_outcome"]
        (by rw [hbp]; rfl) trivial
        (by
          show isFailed (dget (execute_workflow_step stepImpl
            "collect_cost_evidence" context) "status") = true
          rw [hexec, dget_cons_self]
          rfl)
    exact ⟨hspec.2.1, hspec.2.2⟩

/-- Closed witness for C8: a bogus step name and a bogus action name both
produce a failed-status dictionary. -/
theorem unknown_step_and_action_yield_structured_failure_witness :
    dget (execute_workflow_step (fun _ d => d) "bogus_step" []) "status"
      = some (.str "failed") ∧
    dget (run_via_strands (execute_workflow_step (fun _ d => d))
        (workflow_blueprint "no-such-action") []).1 "status"
      = some (.str "failed") :=
  ⟨(unknown_step_and_action_yield_structured_failure.1
      (fun _ d => d) "bogus_step" [] (by decide)).1,
   (unknown_step_and_action_yield_structured_failure.2
      (fun _ d => d) "no-such-action" [] (by decide)).1⟩

end Brickwatch.Runner

namespace Brickwatch.Collector

/-- Is `n` an infix of the second list? -/
def infixCheck (n : List Char) : List Char → Bool
  | [] => n.isEmpty
  | c :: t => n.isPrefixOf (c :: t) || infixCheck n t

/-- Python's `in` on strings: substring containment (used on the
`resource_types` parameter, e.g. `'EC2' in resource_types`). -/
def pyIn (needle haystack : String) : Bool :=
  infixCheck needle.toList haystack.toList

/-- The floor of a rational, computed on its reduced representation. -/
def ratFloor (x : ℚ) : ℤ := Int.fdiv x.num x.den

/-- `round(x)` to an integer, ties to even (Python's rounding mode). -/
def roundHalfEven (x : ℚ) : ℤ :=
  let f := ratFloor x
  let frac := x - f
  if frac < 1/2 then f
  else if 1/2 < frac then f + 1
  else if f % 2 = 0 then f else f + 1

/-- `round(x, 2)` expressed in whole cents. -/
def round2cents (x : ℚ) : ℤ := roundHalfEven (x * 100)

/-- `f"${x:.2f}"` for an amount given in whole cents. -/
def fmtUSD (cents : ℤ) : String :=
  let sign := if cents < 0 then "-" else ""
  let c := cents.natAbs
  "$" ++ sign ++ toString (c / 100) ++ "."
    ++ (if c % 100 < 10 then "0" else "") ++ toString (c % 100)

/-- A recommendation record emitted by the collector: the union of the
dictionary keys used by the EC2, Lambda and S3 record shapes (keys a given
shape does not carry are `none`). -/
structure Rec where
  resource_type : String
  recommendation_source : String
  confidence : String
  estimated_monthly_savings : String
  reason : String
  instance_id : Option String := none
  current_instance_type : Option String := none
  recommended_instance_type : Option String := none
  violation_type : Option String := none
  function_name : Option String := none
  current_memory_mb : Option Nat := none
  recommended_memory_mb : Option Nat := none
  current_concurrency : Option Nat := none
  recommended_concurrency : Option Nat := none
  bucket_name : Option String := none
deriving DecidableEq

/-- One row of `lambda.list_functions` plus the
`get_function_concurrency` answer for it (`none` models both an absent
`ReservedConcurrentExecutions` key and the swallowed exception). -/
structure LambdaFn where
  function_name : String
  memory_size : Nat
  reserved_concurrency : Option Nat
deriving DecidableEq

/-- `COMPANY_COST_POLICIES["lambda"]["reserved_concurrency"]["max"]`. -/
def lambdaPolicyMaxConcurrency : Nat := 100

/-- The Lambda memory savings estimate of `check_lambda_functions`, in
cents: `round((mem/1024 - 1) * 1_000_000 * 0.0000166667, 2)` floored at
`$5.00`. -/
def lambdaMemSavingsCents (memory_size : Nat) : ℤ :=
  let raw : ℚ := ((memory_size : ℚ) / 1024 - 1) * 1000000 * (166667 / 10 ^ 10)
  let r := round2cents raw
  if r < 500 then 500 else r

/-- The memory-oversize recommendation record of `check_lambda_functions`. -/
def lambdaMemoryRec (f : LambdaFn) : Rec :=
  { resource_type := "Lambda",
    function_name := some f.function_name,
    current_memory_mb := some f.memory_size,
    recommended_memory_mb := some 1024,
    estimated_monthly_savings := fmtUSD (lambdaMemSavingsCents f.memory_size),
    reason := "Over-provisioned memory - most functions don't need > 5GB, recommend 1GB",
    confidence := "Policy-Based",
    recommendation_source := "Company Cost Policy" }

/-- The reserved-concurrency recommendation record of
`check_lambda_functions`. -/
def lambdaConcurrencyRec (f : LambdaFn) (rc : Nat) : Rec :=
  { resource_type := "Lambda",
    function_name := some f.function_name,
    current_concurrency := some rc,
    recommended_concurrency := some lambdaPolicyMaxConcurrency,
    estimated_monthly_savings := "$10.00",
    reason := "Reserved concurrency exceeds policy maximum of "
      ++ toString lambdaPolicyMaxConcurrency,
    confidence := "Policy-Based",
    recommendation_source := "Company Cost Policy" }

/-- `check_lambda_functions` (the Lambda policy entry exists and its
concurrency maximum is 100, so the early `no policy` return is not taken);
`reserved_concurrency and reserved_concurrency > max` requires a present,
non-zero value above the maximum. -/
def check_lambda_functions (fns : List LambdaFn) : List Rec × Nat :=
  (fns.flatMap fun f =>
    (if 5120 < f.memory_size then [lambdaMemoryRec f] else []) ++
    (match f.reserved_concurrency with
     | some rc =>
        if rc ≠ 0 ∧ lambdaPolicyMaxConcurrency < rc then [lambdaConcurrencyRec f rc]
        else []
     | none => []),
   fns.length)

/-- Outcome of `get_bucket_lifecycle_configuration` for one bucket. -/
inductive LifecycleResult where
  | present
  | absent
  | accessError
deriving DecidableEq

/-- One row of `s3.list_buckets` with the lifecycle-lookup outcome and the
CloudWatch `BucketSizeBytes` daily average, in GiB (`none` models missing
datapoints or a failing metrics call). -/
structure Bucket where
  name : String
  lifecycle : LifecycleResult
  sizeGB : Option ℚ
deriving DecidableEq

/-- `COMPANY_COST_POLICIES["s3"]["lifecycle_policy_required"]`. -/
def s3LifecyclePolicyRequired : Bool := true

/-- The S3 savings estimate of `check_s3_buckets`, in cents: default `$5.00`
when the size is unavailable, else `round(size_gb * 0.007, 2)` capped at
`$100.00` and floored at `$5.00`. -/
def s3SavingsCents (sizeGB : Option ℚ) : ℤ :=
  match sizeGB with
  | none => 500
  | some gb =>
    let r := round2cents (gb * (7 / 1000))
    if 10000 < r then 10000
    else if r < 500 then 500
    else r

/-- The missing-lifecycle recommendation record of `check_s3_buckets`. -/
def s3Rec (b : Bucket) : Rec :=
  { resource_type := "S3",
    bucket_name := some b.name,
    estimated_monthly_savings := fmtUSD (s3SavingsCents b.sizeGB),
    reason := "Policy requires lifecycle management for all buckets",
    confidence := "Policy-Based",
    recommendation_source := "Company Cost Policy" }

/-- `check_s3_buckets`: buckets whose lifecycle lookup raises anything but
`NoSuchLifecycleConfiguration` are skipped. -/
def check_s3_buckets (buckets : List Bucket) : List Rec × Nat :=
  (if s3LifecyclePolicyRequired then
    buckets.flatMap fun b =>
      match b.lifecycle with
      | .absent => [s3Rec b]
      | _ => []
   else [],
   buckets.length)

end Brickwatch.Collector

namespace Brickwatch.Collector

/-- One running instance from `describe_instances` (the collector's query
filters on `instance-state-name = running`). -/
structure EC2Instance where
  instance_id : String
  instance_type : String
  tags : List (String × String) := []
deriving DecidableEq

/-- Python's `str.startswith`. -/
def pyStartsWith (s pre : String) : Bool :=
  pre.toList.isPrefixOf s.toList

/-- The family-prefix savings heuristic of the EC2 policy scan, in cents
(`'t3.large' in instance_type` is a substring test in the source). -/
def ec2EstimatedSavingsCents (instance_type : String) : ℤ :=
  if pyStartsWith instance_type "r5" || pyStartsWith instance_type "m5" then 5000
  else if pyStartsWith instance_type "c5" then 4000
  else if pyIn "t3.large" instance_type then 2000
  else if pyIn "t3.xlarge" instance_type then 4000
  else 0

/-- `COMPANY_COST_POLICIES["ec2"]["rationale"]`. -/
def ec2PolicyRationale : String :=
  "Cost optimization - only T3 instance family up to medium size allowed. R5, M5, C5, and T2 families are not approved."

/-- The policy-violation record the collector emits for one disallowed
running instance. -/
def policyViolationRec (inst : EC2Instance) : Rec :=
  { resource_type := "EC2",
    instance_id := some inst.instance_id,
    current_instance_type := some inst.instance_type,
    recommended_instance_type :=
      some (Policies.get_recommended_type inst.instance_type "ec2"),
    violation_type := some "disallowed_instance_type",
    reason := ec2PolicyRationale,
    estimated_monthly_savings := fmtUSD (ec2EstimatedSavingsCents inst.instance_type),
    confidence := "Policy-Based",
    recommendation_source := "Company Cost Policy" }

/-- Step 2 of the EC2 section: one policy-sourced recommendation per
running instance whose type fails `is_instance_type_allowed`. -/
def ec2PolicyViolations (instances : List EC2Instance) : List Rec :=
  (instances.filter fun i =>
    ! Policies.is_instance_type_allowed i.instance_type "ec2").map
    policyViolationRec

/-- `best_option` of one Compute Optimizer row. -/
structure OptimizerOption where
  instanceType : String
  savingsValue : ℚ
  rank : String := "N/A"
deriving DecidableEq

/-- One row of `get_ec2_instance_recommendations`. -/
structure OptimizerRec where
  instanceArn : String
  currentInstanceType : String
  recommendationOptions : List OptimizerOption
deriving DecidableEq

/-- `instance_arn.split('/')[-1]`: the suffix after the last `/` (the whole
string when there is no `/`). -/
def afterLastSlash (s : String) : String :=
  String.mk ((s.toList.reverse.takeWhile fun c => c ≠ '/').reverse)

/-- Step 3 of the EC2 section: Compute Optimizer rows, skipping resource
ids already flagged by the policy scan, skipping rows with no options, and
overriding a policy-disallowed suggested type with the policy
recommendation. -/
def optimizerRecsToRecs (policy_violations : List Rec)
    (rows : List OptimizerRec) : List Rec :=
  rows.flatMap fun row =>
    let instance_id :=
      if row.instanceArn = "" then "N/A" else afterLastSlash row.instanceArn
    if policy_violations.any (fun pv => pv.instance_id == some instance_id) then
      []
    else
      match row.recommendationOptions with
      | [] => []
      | best :: _ =>
        let recommended_type :=
          if Policies.is_instance_type_allowed best.instanceType "ec2" then
            best.instanceType
          else Policies.get_recommended_type best.instanceType "ec2"
        [{ resource_type := "EC2",
           instance_id := some instance_id,
           current_instance_type := some row.currentInstanceType,
           recommended_instance_type := some recommended_type,
           estimated_monthly_savings := fmtUSD (round2cents best.savingsValue),
           confidence := best.rank,
           recommendation_source := "Compute Optimizer",
           reason := "" }]

/-- The external answers consumed by one collector run.
`describeInstances = none` models a raised `describe_instances` call (the
whole EC2 section, and with it the tool call, fails);
`optimizerRecs = none` models an unavailable Compute Optimizer (policy
guidance still applies). -/
structure CollectorEnv where
  describeInstances : Option (List EC2Instance)
  optimizerRecs : Option (List OptimizerRec)
  lambdaFunctions : List LambdaFn
  s3Buckets : List Bucket

/-- `lst[:limit]` (Python slice, also for negative `limit`). -/
def pyTakeSlice (l : List Rec) (limit : ℤ) : List Rec :=
  if 0 ≤ limit then l.take limit.toNat else l.take (l.length + limit).toNat

/-- The EC2 section of `get_rightsizing_recommendations`: the pair
(policy violations, optimizer recommendations), or `none` when the
`describe_instances` call raises. -/
def ec2Sections (env : CollectorEnv) (resource_types : String) :
    Option (List Rec × List Rec) :=
  if pyIn "EC2" resource_types then
    match env.describeInstances with
    | none => none
    | some instances =>
      let pv := ec2PolicyViolations instances
      some (pv,
        match env.optimizerRecs with
        | some rows => optimizerRecsToRecs pv rows
        | none => [])
  else some ([], [])

/-- `get_rightsizing_recommendations`, reduced to the `recommendations`
list bound into its JSON answer (`metrics_recommendations` is always the
empty list in the source and appears as `[]` below; the aggregate savings
string and inventory summary of the answer are not modelled). -/
def get_rightsizing_recommendations (env : CollectorEnv)
    (resource_types : String := "EC2,Lambda,S3") (limit : ℤ := 50) :
    Except String (List Rec) :=
  match ec2Sections env resource_types with
  | none => .error "Error analyzing EC2 instances"
  | some (policy_violations, optimizer) =>
    let all₁ := policy_violations ++ [] ++ optimizer
    let all₂ := all₁ ++
      (if pyIn "Lambda" resource_types then
        (check_lambda_functions env.lambdaFunctions).1 else [])
    let all₃ := all₂ ++
      (if pyIn "S3" resource_types then
        (check_s3_buckets env.s3Buckets).1 else [])
    .ok (if limit ≠ 0 ∧ limit < (all₃.length : ℤ) then pyTakeSlice all₃ limit
         else all₃)

end Brickwatch.Collector

namespace Brickwatch.Collector

theorem floor500_eq_max (x : ℤ) : (if x < 500 then 500 else x) = max 500 x := by
  split <;> omega

/-- C5: `check_lambda_functions` emits, for every scanned function with
memory above 5120 MB, a recommendation for 1024 MB whose savings are
`round((GB − 1) × 1,000,000 × 0.0000166667, 2)` dollars floored at `$5.00`
(hence at least `$5.00`); and for every function whose reserved concurrency
is set, non-zero and above the policy maximum of 100, a recommendation for
concurrency 100 with a flat `$10.00` estimate. -/
theorem check_lambda_functions_spec (fns : List LambdaFn) (f : LambdaFn)
    (hf : f ∈ fns) :
    (5120 < f.memory_size →
      lambdaMemoryRec f ∈ (check_lambda_functions fns).1 ∧
      (lambdaMemoryRec f).function_name = some f.function_name ∧
      (lambdaMemoryRec f).recommended_memory_mb = some 1024 ∧
      (lambdaMemoryRec f).estimated_monthly_savings
        = fmtUSD (max 500 (round2cents
            (((f.memory_size : ℚ) / 1024 - 1) * 1000000 * (166667 / 10 ^ 10)))) ∧
      500 ≤ max 500 (round2cents
            (((f.memory_size : ℚ) / 1024 - 1) * 1000000 * (166667 / 10 ^ 10)))) ∧
    (∀ rc, f.reserved_concurrency = some rc → rc ≠ 0 →
      lambdaPolicyMaxConcurrency < rc →
      lambdaConcurrencyRec f rc ∈ (check_lambda_functions fns).1 ∧
      (lambdaConcurrencyRec f rc).function_name = some f.function_name ∧
      (lambdaConcurrencyRec f rc).recommended_concurrency
        = some lambdaPolicyMaxConcurrency ∧
      (lambdaConcurrencyRec f rc).estimated_monthly_savings = "$10.00") := by
  constructor
  · intro hmem
    refine ⟨?_, rfl, rfl, ?_, le_max_left _ _⟩
    · rw [show (check_lambda_functions fns).1 = fns.flatMap (fun f =>
        (if 5120 < f.memory_size then [lambdaMemoryRec f] else []) ++
        (match f.reserved_concurrency with
         | some rc =>
            if rc ≠ 0 ∧ lambdaPolicyMaxConcurrency < rc then
              [lambdaConcurrencyRec f rc]
            else []
         | none => [])) from rfl]
      refine List.mem_flatMap.mpr ⟨f, hf, ?_⟩
      exact List.mem_append_left _ (by rw [if_pos hmem]; exact List.mem_singleton.mpr rfl)
    · show fmtUSD (lambdaMemSavingsCents f.memory_size) = _
      unfold lambdaMemSavingsCents round2cents
      rw [floor500_eq_max]
  · intro rc hrc hne hgt
    refine ⟨?_, rfl, rfl, rfl⟩
    rw [show (check_lambda_functions fns).1 = fns.flatMap (fun f =>
      (if 5120 < f.memory_size then [lambdaMemoryRec f] else []) ++
      (match f.reserved_concurrency with
       | some rc =>
          if rc ≠ 0 ∧ lambdaPolicyMaxConcurrency < rc then
            [lambdaConcurrencyRec f rc]
          else []
       | none => [])) from rfl]
    refine List.mem_flatMap.mpr ⟨f, hf, ?_⟩
    refine List.mem_append_right _ ?_
    rw [hrc]
    simp only [if_pos (And.intro hne hgt)]
    exact List.mem_singleton.mpr rfl

/-- Closed witness for C5: an 8192 MB function with reserved concurrency
150 produces the 1024 MB memory recommendation (savings floored at $5.00)
and the concurrency-100 recommendation with the flat $10.00 estimate. -/
theorem check_lambda_functions_spec_witness :
    lambdaMemoryRec ⟨"big-fn", 8192, some 150⟩
      ∈ (check_lambda_functions [⟨"big-fn", 8192, some 150⟩]).1 ∧
    (lambdaMemoryRec ⟨"big-fn", 8192, some 150⟩).recommended_memory_mb
      = some 1024 ∧
    500 ≤ max 500 (round2cents
      (((8192 : ℚ) / 1024 - 1) * 1000000 * (166667 / 10 ^ 10))) ∧
    lambdaConcurrencyRec ⟨"big-fn", 8192, some 150⟩ 150
      ∈ (check_lambda_functions [⟨"big-fn", 8192, some 150⟩]).1 ∧
    (lambdaConcurrencyRec ⟨"big-fn", 8192, some 150⟩ 150).estimated_monthly_savings
      = "$10.00" := by
  have h := check_lambda_functions_spec [⟨"big-fn", 8192, some 150⟩]
    ⟨"big-fn", 8192, some 150⟩ (List.mem_singleton.mpr rfl)
  obtain ⟨h1, h2⟩ := h
  obtain ⟨hm, _, hmm, _, hfloor⟩ := h1 (by decide)
  obtain ⟨hc, _, _, hcs⟩ := h2 150 rfl (by decide) (by decide)
  exact ⟨hm, hmm, hfloor, hc, hcs⟩

theorem s3SavingsCents_some (gb : ℚ) :
    s3SavingsCents (some gb) =
      (if 10000 < round2cents (gb * (7 / 1000)) then 10000
       else if round2cents (gb * (7 / 1000)) < 500 then 500
       else round2cents (gb * (7 / 1000))) := rfl

/-- C6: `check_s3_buckets` emits, for every scanned bucket with no
lifecycle configuration, a recommendation whose savings are the bucket's
average size in GB × $0.007 (rounded to cents) clamped to
[$5.00, $100.00], and exactly `$5.00` when the size metric is
unavailable. -/
theorem check_s3_buckets_spec (buckets : List Bucket) (b : Bucket)
    (hb : b ∈ buckets) (habs : b.lifecycle = .absent) :
    s3Rec b ∈ (check_s3_buckets buckets).1 ∧
    (s3Rec b).bucket_name = some b.name ∧
    (b.sizeGB = none → (s3Rec b).estimated_monthly_savings = "$5.00") ∧
    (∀ gb, b.sizeGB = some gb →
      (s3Rec b).estimated_monthly_savings = fmtUSD (s3SavingsCents (some gb)) ∧
      500 ≤ s3SavingsCents (some gb) ∧
      s3SavingsCents (some gb) ≤ 10000 ∧
      (500 ≤ round2cents (gb * (7 / 1000)) →
        round2cents (gb * (7 / 1000)) ≤ 10000 →
        s3SavingsCents (some gb) = round2cents (gb * (7 / 1000)))) := by
  refine ⟨?_, rfl, ?_, ?_⟩
  · rw [show (check_s3_buckets buckets).1 = buckets.flatMap (fun b =>
      match b.lifecycle with
      | .absent => [s3Rec b]
      | _ => []) from by simp [check_s3_buckets, s3LifecyclePolicyRequired]]
    refine List.mem_flatMap.mpr ⟨b, hb, ?_⟩
    rw [habs]
    exact List.mem_singleton.mpr rfl
  · intro hnone
    show fmtUSD (s3SavingsCents b.sizeGB) = "$5.00"
    rw [hnone]
    rfl
  · intro gb hgb
    refine ⟨by rw [show (s3Rec b).estimated_monthly_savings
        = fmtUSD (s3SavingsCents b.sizeGB) from rfl, hgb], ?_, ?_, ?_⟩
    · rw [s3SavingsCents_some]
      split_ifs <;> omega
    · rw [s3SavingsCents_some]
      split_ifs <;> omega
    · intro hlo hhi
      rw [s3SavingsCents_some, if_neg (by omega), if_neg (by omega)]

/-- Closed witness for C6: a bucket with no lifecycle configuration and no
retrievable size metric yields a recommendation with savings exactly
`$5.00`. -/
theorem check_s3_buckets_spec_witness :
    s3Rec ⟨"data-bucket", .absent, none⟩
      ∈ (check_s3_buckets [⟨"data-bucket", .absent, none⟩]).1 ∧
    (s3Rec ⟨"data-bucket", .absent, none⟩).estimated_monthly_savings
      = "$5.00" := by
  have h := check_s3_buckets_spec [⟨"data-bucket", .absent, none⟩]
    ⟨"data-bucket", .absent, none⟩ (List.mem_singleton.mpr rfl) rfl
  exact ⟨h.1, h.2.2.1 rfl⟩

end Brickwatch.Collector

namespace Brickwatch.Collector

theorem get_recommended_type_ec2 (x : String) :
    Policies.get_recommended_type x "ec2" = "t3.medium" := rfl

theorem t3medium_allowed :
    Policies.is_instance_type_allowed "t3.medium" "ec2" = true := by decide

theorem mem_ec2PolicyViolations {instances : List EC2Instance} {r : Rec}
    (h : r ∈ ec2PolicyViolations instances) :
    ∃ i ∈ instances, r = policyViolationRec i := by
  unfold ec2PolicyViolations at h
  obtain ⟨i, hi, hr⟩ := List.mem_map.mp h
  exact ⟨i, (List.mem_filter.mp hi).1, hr.symm⟩

theorem mem_optimizerRecsToRecs {pv : List Rec} {rows : List OptimizerRec}
    {r : Rec} (h : r ∈ optimizerRecsToRecs pv rows) :
    r.resource_type = "EC2" ∧
    r.recommendation_source = "Compute Optimizer" ∧
    (∃ t, r.recommended_instance_type = some t ∧
      Policies.is_instance_type_allowed t "ec2" = true) ∧
    (∀ p ∈ pv, p.instance_id ≠ r.instance_id) := by
  unfold optimizerRecsToRecs at h
  obtain ⟨row, _hrow, hr⟩ := List.mem_flatMap.mp h
  by_cases hdup : pv.any (fun pv => pv.instance_id
      == some (if row.instanceArn = "" then "N/A"
               else afterLastSlash row.instanceArn)) = true
  · rw [if_pos hdup] at hr
    exact absurd hr (List.not_mem_nil r)
  · rw [if_neg hdup] at hr
    cases hopt : row.recommendationOptions with
    | nil =>
      rw [hopt] at hr
      exact absurd hr (List.not_mem_nil r)
    | cons best rest =>
      rw [hopt] at hr
      simp only [List.mem_singleton] at hr
      subst hr
      refine ⟨rfl, rfl, ?_, ?_⟩
      · by_cases hal : Policies.is_instance_type_allowed best.instanceType "ec2"
            = true
        · exact ⟨best.instanceType, by simp only [hal, if_true], hal⟩
        · refine ⟨Policies.get_recommended_type best.instanceType "ec2", ?_, ?_⟩
          · simp only [hal]
            rfl
          · rw [get_recommended_type_ec2]
            exact t3medium_allowed
      · intro p hp
        intro hcontra
        refine hdup (List.any_eq_true.mpr ⟨p, hp, ?_⟩)
        rw [hcontra]
        exact beq_self_eq_true _

theorem mem_check_lambda_functions {fns : List LambdaFn} {r : Rec}
    (h : r ∈ (check_lambda_functions fns).1) :
    r.resource_type = "Lambda" ∧
    r.recommendation_source = "Company Cost Policy" := by
  unfold check_lambda_functions at h
  obtain ⟨f, _, hr⟩ := List.mem_flatMap.mp h
  rcases List.mem_append.mp hr with h1 | h2
  · split at h1
    · rw [List.mem_singleton.mp h1]
      exact ⟨rfl, rfl⟩
    · exact absurd h1 (List.not_mem_nil r)
  · split at h2
    · split at h2
      · rw [List.mem_singleton.mp h2]
        exact ⟨rfl, rfl⟩
      · exact absurd h2 (List.not_mem_nil r)
    · exact absurd h2 (List.not_mem_nil r)

theorem mem_check_s3_buckets {buckets : List Bucket} {r : Rec}
    (h : r ∈ (check_s3_buckets buckets).1) :
    r.resource_type = "S3" ∧
    r.recommendation_source = "Company Cost Policy" := by
  unfold check_s3_buckets at h
  have hreq : s3LifecyclePolicyRequired = true := rfl
  rw [if_pos hreq] at h
  obtain ⟨b, _, hr⟩ := List.mem_flatMap.mp h
  split at hr
  · rw [List.mem_singleton.mp hr]
    exact ⟨rfl, rfl⟩
  · exact absurd hr (List.not_mem_nil r)

theorem ec2Sections_characterize {env : CollectorEnv} {rt : String}
    {pv opt : List Rec} (h : ec2Sections env rt = some (pv, opt)) :
    (∀ r ∈ pv, ∃ i, r = policyViolationRec i) ∧
    (∀ r ∈ opt,
      r.resource_type = "EC2" ∧
      r.recommendation_source = "Compute Optimizer" ∧
      (∃ t, r.recommended_instance_type = some t ∧
        Policies.is_instance_type_allowed t "ec2" = true) ∧
      (∀ p ∈ pv, p.instance_id ≠ r.instance_id)) := by
  unfold ec2Sections at h
  by_cases hec2 : pyIn "EC2" rt = true
  · rw [if_pos hec2] at h
    cases hdesc : env.describeInstances with
    | none => rw [hdesc] at h; exact absurd h (by simp)
    | some instances =>
      rw [hdesc] at h
      have hpv : pv = ec2PolicyViolations instances := by
        have := (Option.some.injEq _ _).mp h
        exact (congrArg Prod.fst this).symm
      have hopt : opt = match env.optimizerRecs with
          | some rows => optimizerRecsToRecs (ec2PolicyViolations instances) rows
          | none => [] := by
        have := (Option.some.injEq _ _).mp h
        exact (congrArg Prod.snd this).symm
      constructor
      · intro r hr
        rw [hpv] at hr
        obtain ⟨i, _, hri⟩ := mem_ec2PolicyViolations hr
        exact ⟨i, hri⟩
      · intro r hr
        rw [hopt] at hr
        cases hrows : env.optimizerRecs with
        | none => rw [hrows] at hr; exact absurd hr (List.not_mem_nil r)
        | some rows =>
          rw [hrows] at hr
          have := mem_optimizerRecsToRecs hr
          exact ⟨this.1, this.2.1, this.2.2.1, fun p hp =>
            this.2.2.2 p (hpv ▸ hp)⟩
  · rw [if_neg hec2] at h
    have hpv : pv = [] := by
      have := (Option.some.injEq _ _).mp h
      exact (congrArg Prod.fst this).symm
    have hopt : opt = [] := by
      have := (Option.some.injEq _ _).mp h
      exact (congrArg Prod.snd this).symm
    subst hpv; subst hopt
    exact ⟨fun r hr => absurd hr (List.not_mem_nil r),
           fun r hr => absurd hr (List.not_mem_nil r)⟩

theorem get_rightsizing_structure {env : CollectorEnv} {rt : String}
    {limit : ℤ} {out : List Rec}
    (hout : get_rightsizing_recommendations env rt limit = .ok out) :
    ∃ pv opt, ec2Sections env rt = some (pv, opt) ∧
      out <+: ((pv ++ [] ++ opt)
        ++ (if pyIn "Lambda" rt then (check_lambda_functions env.lambdaFunctions).1
            else []))
        ++ (if pyIn "S3" rt then (check_s3_buckets env.s3Buckets).1 else []) ∧
      (0 < limit → (out.length : ℤ) ≤ limit) := by
  unfold get_rightsizing_recommendations at hout
  cases hsec : ec2Sections env rt with
  | none => rw [hsec] at hout; exact absurd hout (by simp)
  | some sections =>
    obtain ⟨pv, opt⟩ := sections
    rw [hsec] at hout
    simp only [Except.ok.injEq] at hout
    refine ⟨pv, opt, rfl, ?_, ?_⟩
    · rw [← hout]
      repeat' split
      all_goals
        first
          | exact List.prefix_refl _
          | (unfold pyTakeSlice
             split
             · exact List.take_prefix _ _
             · exact List.take_prefix _ _)
    · intro hlim
      rw [← hout]
      repeat' split
      all_goals
        first
          | (unfold pyTakeSlice
             rw [if_pos (le_of_lt hlim)]
             exact le_trans (Int.ofNat_le.mpr (List.length_take_le _ _)) (by omega))
          | (rename_i hcond
             simp only [not_and, not_lt] at hcond
             exact hcond (by omega))

end Brickwatch.Collector

namespace Brickwatch.Collector

/-- C1 counterexample input: no running EC2 instance, one Compute
Optimizer row, and one over-provisioned Lambda function.  The collector
then emits the Lambda policy-sourced recommendation after the EC2
advisory-sourced one. -/
def orderCounterexampleEnv : CollectorEnv :=
  { describeInstances := some [],
    optimizerRecs := some
      [{ instanceArn := "arn/i-opt1", currentInstanceType := "m5.large",
         recommendationOptions :=
           [{ instanceType := "t3.small", savingsValue := 12 }] }],
    lambdaFunctions :=
      [{ function_name := "big-fn", memory_size := 8192,
         reserved_concurrency := none }],
    s3Buckets := [] }

/-- The list the collector returns on the C1 counterexample input. -/
def orderCounterexampleOut : List Rec :=
  (get_rightsizing_recommendations orderCounterexampleEnv "EC2,Lambda,S3"
    50).toOption.getD []

/-- C1 counterexample: on `orderCounterexampleEnv` the batch is
`[advisory-sourced EC2, policy-sourced Lambda]`, so it is NOT the case
that every policy-sourced recommendation precedes every advisory-sourced
recommendation — the claim's global policy-first ordering fails once the
Lambda/S3 policy scans append after the EC2 optimizer list. -/
theorem rightsizing_policy_first_ordering_counterexample :
    get_rightsizing_recommendations orderCounterexampleEnv "EC2,Lambda,S3" 50
      = .ok orderCounterexampleOut ∧
    orderCounterexampleOut.map Rec.recommendation_source
      = ["Compute Optimizer", "Company Cost Policy"] ∧
    ¬ (∀ i j (hi : i < orderCounterexampleOut.length)
         (hj : j < orderCounterexampleOut.length),
        (orderCounterexampleOut.get ⟨i, hi⟩).recommendation_source
          = "Company Cost Policy" →
        (orderCounterexampleOut.get ⟨j, hj⟩).recommendation_source
          = "Compute Optimizer" →
        i < j) := by
  refine ⟨rfl, rfl, ?_⟩
  intro h
  have h2 := h 1 0 (by decide) (by decide) rfl rfl
  omega

/-- C1 (amended): for every collector input and every positive limit, the
output has length at most `limit` and is a prefix of the merged list
(truncation happens after all per-kind lists are concatenated), the merged
list is EC2-policy recommendations, then EC2 optimizer recommendations,
then Lambda, then S3 policy recommendations (so within EC2 every
policy-sourced record precedes every advisory-sourced one, and all
advisory-sourced records are EC2), and no instance id occurs in both the
EC2 policy group and the optimizer group. -/
theorem get_rightsizing_recommendations_merge_spec
    (env : CollectorEnv) (resource_types : String) (limit : ℤ)
    (out : List Rec) (hlim : 0 < limit)
    (hout : get_rightsizing_recommendations env resource_types limit
      = .ok out) :
    (out.length : ℤ) ≤ limit ∧
    ∃ pv opt lam s3r,
      out <+: ((pv ++ [] ++ opt) ++ lam) ++ s3r ∧
      (∀ r ∈ pv, r.recommendation_source = "Company Cost Policy" ∧
        r.resource_type = "EC2") ∧
      (∀ r ∈ opt, r.recommendation_source = "Compute Optimizer" ∧
        r.resource_type = "EC2") ∧
      (∀ r ∈ lam, r.recommendation_source = "Company Cost Policy" ∧
        r.resource_type = "Lambda") ∧
      (∀ r ∈ s3r, r.recommendation_source = "Company Cost Policy" ∧
        r.resource_type = "S3") ∧
      (∀ r ∈ pv, ∀ r' ∈ opt, r.instance_id ≠ r'.instance_id) := by
  obtain ⟨pv, opt, hsec, hpre, hlen⟩ := get_rightsizing_structure hout
  obtain ⟨hpvchar, hoptchar⟩ := ec2Sections_characterize hsec
  refine ⟨hlen hlim,
    pv, opt,
    (if pyIn "Lambda" resource_types then
      (check_lambda_functions env.lambdaFunctions).1 else []),
    (if pyIn "S3" resource_types then
      (check_s3_buckets env.s3Buckets).1 else []),
    hpre, ?_, ?_, ?_, ?_, ?_⟩
  · intro r hr
    obtain ⟨i, hri⟩ := hpvchar r hr
    rw [hri]
    exact ⟨rfl, rfl⟩
  · intro r hr
    have := hoptchar r hr
    exact ⟨this.2.1, this.1⟩
  · intro r hr
    split at hr
    · exact ⟨(mem_check_lambda_functions hr).2, (mem_check_lambda_functions hr).1⟩
    · exact absurd hr (List.not_mem_nil r)
  · intro r hr
    split at hr
    · exact ⟨(mem_check_s3_buckets hr).2, (mem_check_s3_buckets hr).1⟩
    · exact absurd hr (List.not_mem_nil r)
  · intro r hr r' hr'
    exact (hoptchar r' hr').2.2.2 r hr

/-- Closed witness for the amended C1 at the counterexample input. -/
theorem get_rightsizing_recommendations_merge_spec_witness :
    ((orderCounterexampleOut.length : ℤ) ≤ 50 ∧
    ∃ pv opt lam s3r,
      orderCounterexampleOut <+: ((pv ++ [] ++ opt) ++ lam) ++ s3r ∧
      (∀ r ∈ pv, r.recommendation_source = "Company Cost Policy" ∧
        r.resource_type = "EC2") ∧
      (∀ r ∈ opt, r.recommendation_source = "Compute Optimizer" ∧
        r.resource_type = "EC2") ∧
      (∀ r ∈ lam, r.recommendation_source = "Company Cost Policy" ∧
        r.resource_type = "Lambda") ∧
      (∀ r ∈ s3r, r.recommendation_source = "Company Cost Policy" ∧
        r.resource_type = "S3") ∧
      (∀ r ∈ pv, ∀ r' ∈ opt, r.instance_id ≠ r'.instance_id)) :=
  get_rightsizing_recommendations_merge_spec orderCounterexampleEnv
    "EC2,Lambda,S3" 50 orderCounterexampleOut (by decide) rfl

/-- C9: every EC2 recommendation in the collector's output — policy-sourced
or optimizer-sourced — carries a recommended instance type that itself
passes `is_instance_type_allowed` under the shipped policy (optimizer
suggestions matching a disallowed pattern are replaced by the policy
recommendation before being emitted). -/
theorem ec2_recommended_types_pass_policy
    (env : CollectorEnv) (resource_types : String) (limit : ℤ)
    (out : List Rec)
    (hout : get_rightsizing_recommendations env resource_types limit
      = .ok out) :
    ∀ r ∈ out, r.resource_type = "EC2" →
      ∃ t, r.recommended_instance_type = some t ∧
        Policies.is_instance_type_allowed t "ec2" = true := by
  obtain ⟨pv, opt, hsec, hpre, -⟩ := get_rightsizing_structure hout
  obtain ⟨hpvchar, hoptchar⟩ := ec2Sections_characterize hsec
  intro r hr _hec2
  have hmem := hpre.subset hr
  rcases List.mem_append.mp hmem with h1 | hs3
  · rcases List.mem_append.mp h1 with h2 | hlam
    · rcases List.mem_append.mp h2 with h3 | hopt
      · rcases List.mem_append.mp h3 with h4 | h5
        · obtain ⟨i, hri⟩ := hpvchar r h4
          rw [hri]
          refine ⟨"t3.medium", ?_, t3medium_allowed⟩
          show some (Policies.get_recommended_type i.instance_type "ec2") = _
          rw [get_recommended_type_ec2]
        · exact absurd h5 (List.not_mem_nil r)
      · exact (hoptchar r hopt).2.2.1
    · split at hlam
      · exact absurd _hec2 (by
          rw [(mem_check_lambda_functions hlam).1]
          decide)
      · exact absurd hlam (List.not_mem_nil r)
  · split at hs3
    · exact absurd _hec2 (by
        rw [(mem_check_s3_buckets hs3).1]
        decide)
    · exact absurd hs3 (List.not_mem_nil r)

/-- C9 witness input: one disallowed running instance and one optimizer
row whose suggested type is itself disallowed. -/
def passPolicyEnv : CollectorEnv :=
  { describeInstances := some [{ instance_id := "i-1", instance_type := "r5.large" }],
    optimizerRecs := some
      [{ instanceArn := "arn/i-9", currentInstanceType := "c5.large",
         recommendationOptions :=
           [{ instanceType := "m5.large", savingsValue := 33 }] }],
    lambdaFunctions := [],
    s3Buckets := [] }

/-- The list the collector returns on the C9 witness input. -/
def passPolicyOut : List Rec :=
  (get_rightsizing_recommendations passPolicyEnv "EC2" 50).toOption.getD []

/-- Closed witness for C9: the second record of the witness output (the
optimizer row whose suggested `m5.large` is disallowed) ends up
recommending a policy-compliant type. -/
theorem ec2_recommended_types_pass_policy_witness :
    ∃ t, (passPolicyOut.get ⟨1, by decide⟩).recommended_instance_type
      = some t ∧ Policies.is_instance_type_allowed t "ec2" = true :=
  ec2_recommended_types_pass_policy passPolicyEnv "EC2" 50 passPolicyOut rfl
    (passPolicyOut.get ⟨1, by decide⟩)
    (passPolicyOut.get_mem 1 (by decide)) rfl

end Brickwatch.Collector

namespace Brickwatch.Workflows

/-- A recommendation record as submitted to the workflow layer: the keys
`ValidateRecommendationsStep.execute` reads (both naming conventions). -/
structure VRec where
  instance_id : Option String := none
  instanceId : Option String := none
  current_instance_type : Option String := none
  currentType : Option String := none
  recommended_instance_type : Option String := none
  recommendedType : Option String := none
  estimated_monthly_savings : Option String := none
  estimatedSavings : Option String := none
  reason : Option String := none
  recommendation_source : Option String := none
deriving DecidableEq

/-- Python's `a or b` on two optional strings (`None` and `""` are falsy). -/
def pyOr (a b : Option String) : Option String :=
  match a with
  | some s => if s = "" then b else some s
  | none => b

/-- Python's `a or b` where `b` is a plain string. -/
def pyOrStr (a : Option String) (b : String) : String :=
  match a with
  | some s => if s = "" then b else s
  | none => b

/-- A truthy string, or `none`: the values as tested by
`not all([instance_id, current_type, recommended_type])`. -/
def truthy (o : Option String) : Option String :=
  match o with
  | some s => if s = "" then none else some s
  | none => none

/-- `rec.get('instance_id') or rec.get('instanceId')`, as a truthy value. -/
def claimedId (rec : VRec) : Option String :=
  truthy (pyOr rec.instance_id rec.instanceId)

/-- `rec.get('current_instance_type') or rec.get('currentType')`. -/
def claimedCur (rec : VRec) : Option String :=
  truthy (pyOr rec.current_instance_type rec.currentType)

/-- `rec.get('recommended_instance_type') or rec.get('recommendedType')`. -/
def claimedRec (rec : VRec) : Option String :=
  truthy (pyOr rec.recommended_instance_type rec.recommendedType)

/-- The outcome of the per-record `describe_instances` lookup:
`found state instanceType` is `Reservations[0].Instances[0]`;
`notFoundEmpty` is an empty reservations list; `clientError` is a
`ClientError` (both the NotFound code and any other code lead to
`continue`). -/
inductive InventoryResult where
  | found (state : String) (instanceType : String)
  | notFoundEmpty
  | clientError
deriving DecidableEq

/-- The validated record built for one kept recommendation.
`original_recommendation` is the input record, mutated in place by the
step when the live type differs from the claimed one. -/
structure ValidatedRec where
  instance_id : String
  current_instance_type : String
  recommended_instance_type : String
  estimated_savings : String
  reason : String
  original_recommendation : VRec
deriving DecidableEq

/-- The in-place mutation `rec['current_instance_type'] = actual_type;
rec['currentType'] = actual_type` applied when the record is kept and the
live type differs from the claimed current type. -/
def mutateRec (lookup : String → InventoryResult) (rec : VRec) : VRec :=
  match claimedId rec, claimedCur rec, claimedRec rec with
  | some i, some c, some _ =>
    match lookup i with
    | .found state atype =>
      if state = "running" ∧ atype ≠ c then
        { rec with current_instance_type := some atype, currentType := some atype }
      else rec
    | _ => rec
  | _, _, _ => rec

/-- `validated_rec` for one kept recommendation. -/
def mkValidated (lookup : String → InventoryResult) (rec : VRec)
    (i t atype : String) : ValidatedRec :=
  { instance_id := i,
    current_instance_type := atype,
    recommended_instance_type := t,
    estimated_savings :=
      pyOrStr rec.estimated_monthly_savings (rec.estimatedSavings.getD "N/A"),
    reason := pyOrStr rec.reason (rec.recommendation_source.getD "Agent Analysis"),
    original_recommendation := mutateRec lookup rec }

/-- The per-record body of the validation loop: zero or one validated
record (missing fields, a missing instance, a lookup error, or a
non-running state all `continue`). -/
def processOne (lookup : String → InventoryResult) (rec : VRec) :
    List ValidatedRec :=
  match claimedId rec, claimedCur rec, claimedRec rec with
  | some i, some _, some t =>
    match lookup i with
    | .found state atype =>
      if state = "running" then [mkValidated lookup rec i t atype] else []
    | _ => []
  | _, _, _ => []

/-- The result dictionary of `ValidateRecommendationsStep.execute`, as a
structure (the count keys are absent — `none` — on the empty-input early
return). -/
structure ValidateResult where
  status : String
  validated_recommendations : List ValidatedRec
  total_recommendations : Option Nat
  valid_recommendations : Option Nat
  skipped_recommendations : Option Nat
  message : String
  next_step : Option String
deriving DecidableEq

/-- `ValidateRecommendationsStep.execute`, parameterised by the inventory
lookup (per-record `describe_instances`); total by construction, matching
the source's behaviour when no exception escapes the per-record handlers. -/
def validate_recommendations (lookup : String → InventoryResult)
    (recommendations : List VRec) : ValidateResult :=
  if recommendations = [] then
    { status := "success",
      validated_recommendations := [],
      total_recommendations := none,
      valid_recommendations := none,
      skipped_recommendations := none,
      message := "No recommendations to execute",
      next_step := some "apply_rightsizing" }
  else
    let validated := recommendations.flatMap (processOne lookup)
    { status := "success",
      validated_recommendations := validated,
      total_recommendations := some recommendations.length,
      valid_recommendations := some validated.length,
      skipped_recommendations := some (recommendations.length - validated.length),
      message := "Validated " ++ toString validated.length
        ++ " recommendations for execution",
      next_step := some "apply_rightsizing" }

end Brickwatch.Workflows

namespace Brickwatch.Workflows

theorem processOne_orig (lookup : String → InventoryResult) (r : VRec) :
    (processOne lookup r).map ValidatedRec.original_recommendation = [] ∨
    (processOne lookup r).map ValidatedRec.original_recommendation
      = [mutateRec lookup r] := by
  unfold processOne
  cases hI : claimedId r with
  | none =>
    left
    simp only [hI]
    rfl
  | some i =>
    cases hC : claimedCur r with
    | none =>
      left
      simp only [hI, hC]
      rfl
    | some c =>
      cases hT : claimedRec r with
      | none =>
        left
        simp only [hI, hC, hT]
        rfl
      | some t =>
        cases hL : lookup i with
        | found state atype =>
          by_cases hs : state = "running"
          · right
            simp only [hI, hC, hT, hL, hs, if_true]
            rfl
          · left
            simp only [hI, hC, hT, hL, if_neg hs]
            rfl
        | notFoundEmpty =>
          left
          simp only [hI, hC, hT, hL]
          rfl
        | clientError =>
          left
          simp only [hI, hC, hT, hL]
          rfl

theorem flatMap_orig_sublist (lookup : String → InventoryResult) :
    ∀ recs : List VRec,
      List.Sublist
        ((recs.flatMap (processOne lookup)).map
          ValidatedRec.original_recommendation)
        (recs.map (mutateRec lookup)) := by
  intro recs
  induction recs with
  | nil => exact List.Sublist.refl _
  | cons r rs ih =>
    rw [List.flatMap_cons, List.map_cons, List.map_append]
    rcases processOne_orig lookup r with h | h
    · rw [h, List.nil_append]
      exact List.Sublist.cons _ ih
    · rw [h, List.singleton_append]
      exact List.Sublist.cons₂ _ ih

theorem mem_processOne {lookup : String → InventoryResult} {r : VRec}
    {v : ValidatedRec} (h : v ∈ processOne lookup r) :
    lookup v.instance_id = .found "running" v.current_instance_type := by
  unfold processOne at h
  cases hI : claimedId r with
  | none =>
    rw [hI] at h
    exact absurd h (List.not_mem_nil v)
  | some i =>
    rw [hI] at h
    cases hC : claimedCur r with
    | none =>
      rw [hC] at h
      exact absurd h (List.not_mem_nil v)
    | some c =>
      rw [hC] at h
      cases hT : claimedRec r with
      | none =>
        rw [hT] at h
        exact absurd h (List.not_mem_nil v)
      | some t =>
        rw [hT] at h
        have h' : v ∈ (match lookup i with
            | InventoryResult.found state atype =>
                if state = "running" then [mkValidated lookup r i t atype]
                else []
            | _ => []) := h
        cases hL : lookup i with
        | found state atype =>
          rw [hL] at h'
          have h2 : v ∈ (if state = "running"
              then [mkValidated lookup r i t atype] else []) := h'
          by_cases hs : state = "running"
          · rw [if_pos hs] at h2
            rw [List.mem_singleton.mp h2]
            show lookup i = _
            rw [hL, hs]
            rfl
          · rw [if_neg hs] at h2
            exact absurd h2 (List.not_mem_nil v)
        | notFoundEmpty =>
          rw [hL] at h'
          exact absurd h' (List.not_mem_nil v)
        | clientError =>
          rw [hL] at h'
          exact absurd h' (List.not_mem_nil v)

/-- C10: `validate_recommendations` always reports status `"success"`
(never `"failed"`) when its per-record inventory lookups do not raise
outside the per-record handlers; invalid records are silently dropped; the
originals of the validated entries form a sublist of the (in-place
mutated) input; on non-empty input, `skipped_recommendations` equals
`total_recommendations` minus `valid_recommendations`; every kept entry's
current type is the server-verified live type of a running instance; and a
record with all three fields whose instance is live and running is kept
with the server-verified type. -/
theorem validate_recommendations_success_spec
    (lookup : String → InventoryResult) (recs : List VRec) :
    (validate_recommendations lookup recs).status = "success" ∧
    List.Sublist
      ((validate_recommendations lookup recs).validated_recommendations.map
        ValidatedRec.original_recommendation)
      (recs.map (mutateRec lookup)) ∧
    (validate_recommendations lookup recs).validated_recommendations.length
      ≤ recs.length ∧
    (recs ≠ [] →
      (validate_recommendations lookup recs).total_recommendations
        = some recs.length ∧
      (validate_recommendations lookup recs).valid_recommendations
        = some (validate_recommendations lookup
            recs).validated_recommendations.length ∧
      (validate_recommendations lookup recs).skipped_recommendations
        = some (recs.length - (validate_recommendations lookup
            recs).validated_recommendations.length)) ∧
    (∀ v ∈ (validate_recommendations lookup recs).validated_recommendations,
      lookup v.instance_id = .found "running" v.current_instance_type) ∧
    (∀ rec ∈ recs, ∀ i c t atype,
      claimedId rec = some i → claimedCur rec = some c →
      claimedRec rec = some t → lookup i = .found "running" atype →
      mkValidated lookup rec i t atype
        ∈ (validate_recommendations lookup recs).validated_recommendations) := by
  by_cases hrecs : recs = []
  · subst hrecs
    refine ⟨rfl, List.nil_sublist _, Nat.le_refl 0, fun h => absurd rfl h,
      ?_, ?_⟩
    · intro v hv
      exact absurd hv (List.not_mem_nil v)
    · intro rec hrec
      exact absurd hrec (List.not_mem_nil rec)
  · have hout : validate_recommendations lookup recs
        = { status := "success",
            validated_recommendations := recs.flatMap (processOne lookup),
            total_recommendations := some recs.length,
            valid_recommendations := some (recs.flatMap (processOne lookup)).length,
            skipped_recommendations :=
              some (recs.length - (recs.flatMap (processOne lookup)).length),
            message := "Validated "
              ++ toString (recs.flatMap (processOne lookup)).length
              ++ " recommendations for execution",
            next_step := some "apply_rightsizing" } := by
      unfold validate_recommendations
      rw [if_neg hrecs]
    rw [hout]
    refine ⟨rfl, flatMap_orig_sublist lookup recs, ?_, fun _ => ⟨rfl, rfl, rfl⟩,
      ?_, ?_⟩
    · have := (flatMap_orig_sublist lookup recs).length_le
      simpa using this
    · intro v hv
      obtain ⟨r, _, hvr⟩ := List.mem_flatMap.mp hv
      exact mem_processOne hvr
    · intro rec hrec i c t atype hI hC hT hL
      refine List.mem_flatMap.mpr ⟨rec, hrec, ?_⟩
      have hpo : processOne lookup rec = [mkValidated lookup rec i t atype] := by
        unfold processOne
        rw [hI, hC, hT]
        have h2 : (match lookup i with
            | InventoryResult.found state atype =>
                if state = "running" then [mkValidated lookup rec i t atype]
                else []
            | _ => []) = [mkValidated lookup rec i t atype] := by
          rw [hL]
          rfl
        exact h2
      rw [hpo]
      exact List.mem_singleton.mpr rfl

/-- The inventory behaviour of the C10 witness: `i-1` is running with live
type `m5.large`, everything else is missing. -/
def sampleLookup : String → InventoryResult := fun i =>
  if i = "i-1" then .found "running" "m5.large"
  else if i = "i-3" then .found "stopped" "t3.micro"
  else .notFoundEmpty

/-- The C10 witness input: a drifted valid record, a record with a missing
field, and a stopped instance. -/
def sampleVRecs : List VRec :=
  [{ instance_id := some "i-1", current_instance_type := some "r5.large",
     recommended_instance_type := some "t3.medium" },
   { instance_id := some "i-2", current_instance_type := some "m5.large" },
   { instance_id := some "i-3", current_instance_type := some "t3.micro",
     recommended_instance_type := some "t3.small" }]

/-- Closed witness for C10: on the sample input the step succeeds, its
skipped count is total minus valid, and the drifted record is kept with
the server-verified current type. -/
theorem validate_recommendations_success_spec_witness :
    (validate_recommendations sampleLookup sampleVRecs).status = "success" ∧
    (validate_recommendations sampleLookup
        sampleVRecs).skipped_recommendations
      = some (sampleVRecs.length - (validate_recommendations sampleLookup
          sampleVRecs).validated_recommendations.length) ∧
    mkValidated sampleLookup
        { instance_id := some "i-1", current_instance_type := some "r5.large",
          recommended_instance_type := some "t3.medium" }
        "i-1" "t3.medium" "m5.large"
      ∈ (validate_recommendations sampleLookup
          sampleVRecs).validated_recommendations := by
  have h := validate_recommendations_success_spec sampleLookup sampleVRecs
  refine ⟨h.1, (h.2.2.2.1 (by decide)).2.2, ?_⟩
  exact h.2.2.2.2.2
    { instance_id := some "i-1", current_instance_type := some "r5.large",
      recommended_instance_type := some "t3.medium" }
    (by decide) "i-1" "r5.large" "t3.medium" "m5.large" rfl rfl rfl rfl

end Brickwatch.Workflows

namespace Brickwatch.Api

open Brickwatch.Collector (fmtUSD round2cents)

/-- A recommendation as submitted to `POST /v1/automation`
(`context.recommendations`): the keys the handler reads.  A missing
`resource_type` defaults to `"EC2"` via `rec.get('resource_type', 'EC2')`.
`savingsValue` models the number
`float(rec.get('estimated_monthly_savings', '$0').replace('$','').replace(',',''))`
parses to (a record whose savings string does not parse makes the handler
answer 500 through its outer exception handler and is outside this model). -/
structure AutoRec where
  resource_type : Option String := none
  instance_id : Option String := none
  current_instance_type : Option String := none
  recommended_instance_type : Option String := none
  bucket_name : Option String := none
  function_name : Option String := none
  current_memory_mb : Option Nat := none
  recommended_memory_mb : Option Nat := none
  current_concurrency : Option Nat := none
  recommended_concurrency : Option Nat := none
  savingsValue : ℚ := 0
deriving DecidableEq

/-- `rec.get('resource_type', 'EC2')`. -/
def rtypeOf (r : AutoRec) : String := r.resource_type.getD "EC2"

/-- `resource_summary[t]`: the submitted records of one resource type, in
submission order. -/
def groupOf (recs : List AutoRec) (t : String) : List AutoRec :=
  recs.filter fun r => rtypeOf r == t

/-- `f"{rec.get(key, 'N/A')}"` for a numeric field. -/
def dispNat (o : Option Nat) : String :=
  match o with
  | some n => toString n
  | none => "N/A"

/-- One EC2 line of the execution plan. -/
def ec2Line (r : AutoRec) : String :=
  "- Stop instance `" ++ r.instance_id.getD "N/A" ++ "`, modify from `"
    ++ r.current_instance_type.getD "N/A" ++ "` to `"
    ++ r.recommended_instance_type.getD "N/A" ++ "`, restart and verify\n"

/-- The header of the EC2 block (one f-string with the group size in the
source; split here before its trailing newline). -/
def ec2Header (recs : List AutoRec) : String :=
  "**EC2 Instances (" ++ toString (groupOf recs "EC2").length ++ "):**"

/-- The EC2 block of the execution plan: header with the group size, the
first 3 records, and a count of the remainder. -/
def ec2Section (recs : List AutoRec) : String :=
  let g := groupOf recs "EC2"
  if g.isEmpty then ""
  else
    ec2Header recs ++ "\n"
      ++ String.join ((g.take 3).map ec2Line)
      ++ (if 3 < g.length then
            "- ... and " ++ toString (g.length - 3) ++ " more instance(s)\n"
          else "")
      ++ "\n"

/-- One S3 line of the execution plan. -/
def s3Line (r : AutoRec) : String :=
  "- Apply Intelligent-Tiering lifecycle policy to bucket `"
    ++ r.bucket_name.getD "N/A" ++ "`\n"

/-- The header of the S3 block. -/
def s3Header (recs : List AutoRec) : String :=
  "**S3 Buckets (" ++ toString (groupOf recs "S3").length ++ "):**"

/-- The S3 block of the execution plan. -/
def s3Section (recs : List AutoRec) : String :=
  let g := groupOf recs "S3"
  if g.isEmpty then ""
  else
    s3Header recs ++ "\n"
      ++ String.join ((g.take 3).map s3Line)
      ++ (if 3 < g.length then
            "- ... and " ++ toString (g.length - 3) ++ " more bucket(s)\n"
          else "")
      ++ "\n"

/-- One Lambda line of the execution plan. -/
def lambdaLine (r : AutoRec) : String :=
  let changes :=
    (if r.recommended_memory_mb.isSome then
      ["memory: " ++ dispNat r.current_memory_mb ++ "MB → "
        ++ toString (r.recommended_memory_mb.getD 0) ++ "MB"]
     else []) ++
    (if r.recommended_concurrency.isSome then
      ["concurrency: " ++ dispNat r.current_concurrency ++ " → "
        ++ toString (r.recommended_concurrency.getD 0)]
     else [])
  "- Update function `" ++ r.function_name.getD "N/A" ++ "` ("
    ++ String.intercalate ", " changes ++ ")\n"

/-- The header of the Lambda block. -/
def lambdaHeader (recs : List AutoRec) : String :=
  "**Lambda Functions (" ++ toString (groupOf recs "Lambda").length ++ "):**"

/-- The Lambda block of the execution plan. -/
def lambdaSection (recs : List AutoRec) : String :=
  let g := groupOf recs "Lambda"
  if g.isEmpty then ""
  else
    lambdaHeader recs ++ "\n"
      ++ String.join ((g.take 3).map lambdaLine)
      ++ (if 3 < g.length then
            "- ... and " ++ toString (g.length - 3) ++ " more function(s)\n"
          else "")
      ++ "\n"

/-- `**Estimated Total Monthly Savings:** $...` with the parsed sum. -/
def totalLine (recs : List AutoRec) : String :=
  "**Estimated Total Monthly Savings:** "
    ++ fmtUSD (round2cents (recs.foldl (fun acc r => acc + r.savingsValue) 0))

/-- The handler's `execution_plan` string. -/
def executionPlan (recs : List AutoRec) : String :=
  "**Execution Plan:**\n\n"
    ++ ec2Section recs ++ s3Section recs ++ lambdaSection recs
    ++ totalLine recs

/-- The handler's `final_message` string. -/
def finalMessage (plan : String) : String :=
  plan ++ "\n\n---\n\n**Status:** Workflow execution in progress  \n**Estimated Time:** 3-5 minutes\n\nThe Workflow Agent is processing your optimizations in the background."

/-- The HTTP answer of the automation handler, reduced to the examined
fields (`status_code` plus the JSON body's keys). -/
structure AutomationResponse where
  status_code : Nat
  error_message : Option String := none
  status : Option String := none
  execution_id : Option String := none
  result_message : Option String := none
  recommendations_processed : Option Nat := none
  execution_details : Option String := none
  result_status : Option String := none
deriving DecidableEq

/-- `app.py::automation`, parameterised by the SSM-resolved workflow
endpoint (`none` models a failed/empty parameter lookup), the
`AGENTCORE_AVAILABLE` flag, the bearer token extracted from the
`Authorization` header (`none` models a missing header or one not starting
with `Bearer `), and the millisecond clock used for the execution id.  The
asynchronous self-invocation is fire-and-forget and assumed not to raise
(a raising invoke answers 500 through the inner exception handler). -/
def automation (workflow_endpoint : Option String)
    (agentcore_available : Bool) (bearer_token : Option String)
    (recommendations : List AutoRec) (now_ms : Nat) : AutomationResponse :=
  if workflow_endpoint.isSome ∧ agentcore_available then
    match bearer_token with
    | none =>
      { status_code := 401,
        error_message := some "Bearer token required for workflow execution" }
    | some t =>
      if t = "" then
        { status_code := 401,
          error_message := some "Bearer token required for workflow execution" }
      else
        let execution_id := "workflow-" ++ toString now_ms
        let plan := executionPlan recommendations
        { status_code := 202,
          status := some "accepted",
          execution_id := some execution_id,
          result_message := some (finalMessage plan),
          recommendations_processed := some recommendations.length,
          execution_details := some plan,
          result_status := some "in_progress" }
  else
    { status_code := 503,
      error_message := some "Workflow agent not configured" }

/-- `sub` occurs as a substring of `s`. -/
def strContains (s sub : String) : Prop :=
  ∃ l r : List Char, s.toList = l ++ sub.toList ++ r

end Brickwatch.Api

namespace Brickwatch.Api

theorem toList_append (a b : String) :
    (a ++ b).toList = a.toList ++ b.toList := String.data_append a b

theorem strContains_appendl (a : String) {s sub : String}
    (h : strContains s sub) : strContains (a ++ s) sub := by
  obtain ⟨l, r, hs⟩ := h
  exact ⟨a.toList ++ l, r, by rw [toList_append, hs]; simp⟩

theorem strContains_appendr {s sub : String} (c : String)
    (h : strContains s sub) : strContains (s ++ c) sub := by
  obtain ⟨l, r, hs⟩ := h
  exact ⟨l, r ++ c.toList, by rw [toList_append, hs]; simp⟩

theorem strContains_self_append (sub r : String) :
    strContains (sub ++ r) sub :=
  ⟨[], r.toList, by rw [toList_append]; simp⟩

theorem strContains_of_eq {s sub : String} (l r : String)
    (h : s = l ++ (sub ++ r)) : strContains s sub := by
  subst h
  exact ⟨l.toList, r.toList, by simp [toList_append]⟩

theorem ec2Section_contains_header {recs : List AutoRec}
    (h : groupOf recs "EC2" ≠ []) :
    strContains (executionPlan recs) (ec2Header recs) := by
  have hsec : ec2Section recs = ec2Header recs ++ "\n"
      ++ String.join (((groupOf recs "EC2").take 3).map ec2Line)
      ++ (if 3 < (groupOf recs "EC2").length then
            "- ... and " ++ toString ((groupOf recs "EC2").length - 3)
              ++ " more instance(s)\n"
          else "")
      ++ "\n" := by
    unfold ec2Section
    rw [if_neg (by simpa using h)]
  refine strContains_of_eq "**Execution Plan:**\n\n"
    ("\n" ++ String.join (((groupOf recs "EC2").take 3).map ec2Line)
      ++ (if 3 < (groupOf recs "EC2").length then
            "- ... and " ++ toString ((groupOf recs "EC2").length - 3)
              ++ " more instance(s)\n"
          else "")
      ++ "\n"
      ++ (s3Section recs ++ (lambdaSection recs ++ totalLine recs))) ?_
  unfold executionPlan
  rw [hsec]
  simp only [String.append_assoc]

theorem s3Section_contains_header {recs : List AutoRec}
    (h : groupOf recs "S3" ≠ []) :
    strContains (executionPlan recs) (s3Header recs) := by
  have hsec : s3Section recs = s3Header recs ++ "\n"
      ++ String.join (((groupOf recs "S3").take 3).map s3Line)
      ++ (if 3 < (groupOf recs "S3").length then
            "- ... and " ++ toString ((groupOf recs "S3").length - 3)
              ++ " more bucket(s)\n"
          else "")
      ++ "\n" := by
    unfold s3Section
    rw [if_neg (by simpa using h)]
  refine strContains_of_eq ("**Execution Plan:**\n\n" ++ ec2Section recs)
    ("\n" ++ String.join (((groupOf recs "S3").take 3).map s3Line)
      ++ (if 3 < (groupOf recs "S3").length then
            "- ... and " ++ toString ((groupOf recs "S3").length - 3)
              ++ " more bucket(s)\n"
          else "")
      ++ "\n"
      ++ (lambdaSection recs ++ totalLine recs)) ?_
  unfold executionPlan
  rw [hsec]
  simp only [String.append_assoc]

theorem lambdaSection_contains_header {recs : List AutoRec}
    (h : groupOf recs "Lambda" ≠ []) :
    strContains (executionPlan recs) (lambdaHeader recs) := by
  have hsec : lambdaSection recs = lambdaHeader recs ++ "\n"
      ++ String.join (((groupOf recs "Lambda").take 3).map lambdaLine)
      ++ (if 3 < (groupOf recs "Lambda").length then
            "- ... and " ++ toString ((groupOf recs "Lambda").length - 3)
              ++ " more function(s)\n"
          else "")
      ++ "\n" := by
    unfold lambdaSection
    rw [if_neg (by simpa using h)]
  refine strContains_of_eq
    ("**Execution Plan:**\n\n" ++ (ec2Section recs ++ s3Section recs))
    ("\n" ++ String.join (((groupOf recs "Lambda").take 3).map lambdaLine)
      ++ (if 3 < (groupOf recs "Lambda").length then
            "- ... and " ++ toString ((groupOf recs "Lambda").length - 3)
              ++ " more function(s)\n"
          else "")
      ++ "\n"
      ++ totalLine recs) ?_
  unfold executionPlan
  rw [hsec]
  simp only [String.append_assoc]

/-- C4 counterexample: with no downstream execution target configured AND
no bearer token, the handler answers 503, not 401 — the endpoint check
runs before the bearer-token check, so the claim's unconditional
"no bearer token → 401" fails. -/
theorem automation_missing_token_counterexample :
    (automation none true none [] 0).status_code = 503 ∧
    (automation none true none [] 0).status_code ≠ 401 :=
  ⟨rfl, by decide⟩

/-- C4 (amended): if no execution target is configured (or the gateway
module is unavailable) the answer is 503 even when the bearer token is
also missing; if a target is configured but the bearer token is missing or
empty, the answer is 401; otherwise the answer is 202 with status
`"accepted"`, a time-based execution id, `recommendations_processed` equal
to the number of submitted recommendations, result status `"in_progress"`,
and an execution plan containing, for each non-empty EC2/S3/Lambda group,
its header with the group size (the plan lists the first 3 of each group
and a count of the remainder). -/
theorem automation_spec (workflow_endpoint : Option String)
    (agentcore_available : Bool) (bearer_token : Option String)
    (recommendations : List AutoRec) (now_ms : Nat) :
    ((workflow_endpoint = none ∨ agentcore_available = false) →
      (automation workflow_endpoint agentcore_available bearer_token
        recommendations now_ms).status_code = 503) ∧
    (workflow_endpoint.isSome → agentcore_available = true →
      (bearer_token = none ∨ bearer_token = some "") →
      (automation workflow_endpoint agentcore_available bearer_token
        recommendations now_ms).status_code = 401) ∧
    (∀ t, workflow_endpoint.isSome → agentcore_available = true →
      bearer_token = some t → t ≠ "" →
      (automation workflow_endpoint agentcore_available bearer_token
        recommendations now_ms)
        = { status_code := 202,
            status := some "accepted",
            execution_id := some ("workflow-" ++ toString now_ms),
            result_message := some (finalMessage (executionPlan recommendations)),
            recommendations_processed := some recommendations.length,
            execution_details := some (executionPlan recommendations),
            result_status := some "in_progress" } ∧
      (groupOf recommendations "EC2" ≠ [] →
        strContains (executionPlan recommendations)
          (ec2Header recommendations)) ∧
      (groupOf recommendations "S3" ≠ [] →
        strContains (executionPlan recommendations)
          (s3Header recommendations)) ∧
      (groupOf recommendations "Lambda" ≠ [] →
        strContains (executionPlan recommendations)
          (lambdaHeader recommendations))) := by
  refine ⟨?_, ?_, ?_⟩
  · intro h
    unfold automation
    rw [if_neg]
    rcases h with h | h
    · rw [h]
      rintro ⟨hcontra, -⟩
      exact absurd hcontra (by simp [Option.isSome])
    · rw [h]
      rintro ⟨-, hcontra⟩
      exact absurd hcontra (by simp)
  · intro hep hac hbt
    unfold automation
    rw [if_pos ⟨hep, hac⟩]
    rcases hbt with h | h
    · rw [h]
    · rw [h]
      rfl
  · intro t hep hac hbt hne
    refine ⟨?_, fun h => ec2Section_contains_header h,
      fun h => s3Section_contains_header h,
      fun h => lambdaSection_contains_header h⟩
    unfold automation
    rw [if_pos ⟨hep, hac⟩]
    simp only [hbt]
    rw [if_neg hne]

end Brickwatch.Api

namespace Brickwatch.Api

/-- The C4 witness batch: 3 EC2 and 2 S3 recommendations. -/
def sampleAutomationRecs : List AutoRec :=
  [{ resource_type := some "EC2", instance_id := some "i-1",
     current_instance_type := some "r5.large",
     recommended_instance_type := some "t3.medium" },
   { resource_type := some "EC2", instance_id := some "i-2" },
   { resource_type := some "EC2", instance_id := some "i-3" },
   { resource_type := some "S3", bucket_name := some "b-1" },
   { resource_type := some "S3", bucket_name := some "b-2" }]

/-- Closed witness for the amended C4: submitting 3 EC2 + 2 S3
recommendations with a configured target and a valid bearer token yields
202 with `recommendations_processed = 5` and a plan mentioning
`EC2 Instances (3)` and `S3 Buckets (2)`. -/
theorem automation_spec_witness :
    (automation (some "wf-endpoint") true (some "tok")
        sampleAutomationRecs 1700000000000)
      = { status_code := 202,
          status := some "accepted",
          execution_id := some ("workflow-" ++ toString 1700000000000),
          result_message :=
            some (finalMessage (executionPlan sampleAutomationRecs)),
          recommendations_processed := some 5,
          execution_details := some (executionPlan sampleAutomationRecs),
          result_status := some "in_progress" } ∧
    strContains (executionPlan sampleAutomationRecs)
      "**EC2 Instances (3):**" ∧
    strContains (executionPlan sampleAutomationRecs)
      "**S3 Buckets (2):**" := by
  have h := (automation_spec (some "wf-endpoint") true (some "tok")
    sampleAutomationRecs 1700000000000).2.2 "tok" rfl rfl rfl (by decide)
  refine ⟨h.1, ?_, ?_⟩
  · have h2 := h.2.1 (by decide)
    exact (show ec2Header sampleAutomationRecs = "**EC2 Instances (3):**"
      from rfl) ▸ h2
  · have h2 := h.2.2.1 (by decide)
    exact (show s3Header sampleAutomationRecs = "**S3 Buckets (2):**"
      from rfl) ▸ h2

end Brickwatch.Api
